import Mathlib

/-!
# xend: a local file server

A shallow embedding of `main.go`: the hidden-path filter `checkHiddenDir`, the two
response-writer wrappers (`responseWriter`, `compressionResponseWriter`) and the
middleware chain `composeMiddlewares`, followed by the properties of the chain.

## How the program is embedded

* Go strings are `String`s, processed as lists of characters; the program only
  compares against the ASCII characters `/` and `.`, so bytes and characters agree.
  Byte slices are lists of `UInt8`.
* Go `int` is a two's-complement integer of 32 or 64 bits, depending on the build
  target (`IntSize`): the byte counts a `Write` reports and the recorded status code
  are integers, and the one `int` computation of the program, `r.size += size`, is
  reduced by `wrapInt`.
* An `http.ResponseWriter` is a record of its three methods over an explicit state; a
  `Write` may report any count and any error.  A handler body is a finite tree of
  calls on the writer it is given (`Prog`): it may read and change the header map,
  call `WriteHeader` and `Write`, look at every result, and finally return or panic.
  A middleware is a function from handlers to handlers, as in the source.
* What comes from the Go standard library is kept apart from the program.
  `filepath.Separator` is a parameter of `checkHiddenDir`.  The encoder of the
  `gzip.Writer` is a parameter (`Compressor`); the writer around it (`gzipWriter`)
  keeps the first error its destination reports, stops writing and returns that
  error from then on.
* `Transport` is the server's response in the form the properties about committed
  status and headers refer to: it commits status and headers on the first
  `WriteHeader`, or with status 200 on the first `Write`, ignores later `WriteHeader`
  calls and takes every byte it is given.  The properties about recorded and logged
  sizes do not depend on it: they are stated over an arbitrary response writer, which
  may refuse a body or fail (`Transport.bodyless` is one that does).
* The access-log line is recorded without its duration.
-/

namespace Xend

/-! ## The `strings` functions used by the program -/

/-- Go `strings.TrimPrefix(s, prefix)` for a one-character prefix: `s` without the
leading `c` when it starts with `c`, otherwise `s` itself. -/
def TrimPrefix (s : List Char) (c : Char) : List Char :=
  match s with
  | [] => []
  | x :: rest => if x = c then rest else x :: rest

/-- Go `strings.HasPrefix(s, prefix)` for a one-character prefix. -/
def HasPrefix (s : List Char) (c : Char) : Bool :=
  match s with
  | [] => false
  | x :: _ => decide (x = c)

/-- Go `strings.SplitSeq(s, sep)` for a one-character separator, as the list of the
substrings it yields in order: the pieces of `s` between consecutive separators.  The
empty string yields the single piece `""`. -/
def SplitSeq (s : List Char) (sep : Char) : List (List Char) :=
  match s with
  | [] => [[]]
  | x :: rest =>
    if x = sep then [] :: SplitSeq rest sep
    else
      match SplitSeq rest sep with
      | [] => [[x]]
      | piece :: pieces => (x :: piece) :: pieces

/-- Go `strings.Contains(s, substr)` on character lists: `substr` occurs in `s` as a
contiguous block. -/
def containsChars (s substr : List Char) : Bool :=
  match s with
  | [] => substr.isPrefixOf []
  | x :: rest => substr.isPrefixOf (x :: rest) || containsChars rest substr

/-- Go `strings.Contains(s, substr)`. -/
def Contains (s substr : String) : Bool :=
  containsChars s.toList substr.toList

/-! ## The hidden-path filter -/

/-- The body of `checkHiddenDir` on the characters of the path.  `Separator` is
`filepath.Separator`, which the Go library fixes per build target (`'/'` on every
target but Windows). -/
def checkHiddenDirChars (Separator : Char) (path : List Char) : Bool :=
  (SplitSeq (TrimPrefix path '/') Separator).any (fun part => HasPrefix part '.')

/-- Source `checkHiddenDir`: trims one leading `/`, splits on the platform separator
and reports whether some part starts with a dot. -/
def checkHiddenDir (Separator : Char) (path : String) : Bool :=
  checkHiddenDirChars Separator path.toList

/-- Go `strings.Join(parts, sep)` for a one-character separator; the inverse view of
splitting, used to say what "the segments of a path" are. -/
def Join (sep : Char) : List (List Char) → List Char
  | [] => []
  | [a] => a
  | a :: b :: rest => a ++ sep :: Join sep (b :: rest)


/-! ## HTTP data -/

/-- Go `[]byte`. -/
abbrev Bytes := List UInt8

/-- The bytes of an ASCII string literal, as `[]byte("...")` produces them. -/
def bytesOf (s : String) : Bytes :=
  s.toList.map (fun c => c.toNat.toUInt8)

/-- Go `error`: `none` is `nil`. -/
abbrev error := Option String

/-- The width of Go's `int` on the build target: 32 or 64 bits. -/
inductive IntSize where
  | bits32 : IntSize
  | bits64 : IntSize
deriving DecidableEq

/-- The number of bits of `int`. -/
def IntSize.bits : IntSize → Nat
  | .bits32 => 32
  | .bits64 => 64

/-- The largest `int`. -/
def IntSize.maxInt (sz : IntSize) : Int :=
  2 ^ (sz.bits - 1) - 1

/-- The value an `int` computation yields for the mathematical result `x`: the
two's-complement representative of `x` in `[-2^(bits-1), 2^(bits-1))`. -/
def wrapInt (sz : IntSize) (x : Int) : Int :=
  (x + 2 ^ (sz.bits - 1)) % 2 ^ sz.bits - 2 ^ (sz.bits - 1)

/-- Go `http.Header`: the values stored under each (canonical) key, `[]` when the
key is absent. -/
structure Header where
  values : String → List String

/-- An empty header map. -/
def Header.empty : Header := ⟨fun _ => []⟩

/-- Go `Header.Get`: the first value under the key, `""` when there is none. -/
def Header.Get (h : Header) (key : String) : String :=
  (h.values key).headD ""

/-- Go `Header.Set`: replaces the values under the key by the single value. -/
def Header.Set (h : Header) (key value : String) : Header :=
  ⟨fun k => if k = key then [value] else h.values k⟩

/-- Go `Header.Add`: appends one value under the key. -/
def Header.Add (h : Header) (key value : String) : Header :=
  ⟨fun k => if k = key then h.values k ++ [value] else h.values k⟩

/-- Go `Header.Del`: removes the key. -/
def Header.Del (h : Header) (key : String) : Header :=
  ⟨fun k => if k = key then [] else h.values k⟩

/-- Go `url.URL`, the field the program reads. -/
structure URL where
  Path : String

/-- Go `http.Request`, the fields the program reads. -/
structure Request where
  Method : String
  URL : URL
  RequestURI : String
  Proto : String
  RemoteAddr : String
  Header : Xend.Header

/-- The `http.ResponseWriter` interface over a writer whose state is `W`.  `Header()`
hands out the live header map: `Header` reads it and `HeaderUpdate` is a mutation the
caller performs on it. -/
structure ResponseWriter (W : Type) where
  Header : W → Xend.Header
  HeaderUpdate : W → (Xend.Header → Xend.Header) → W
  Write : W → Bytes → W × Int × error
  WriteHeader : W → Int → W

/-! ## Handlers -/

/-- The body of a handler, as the calls it makes on the `http.ResponseWriter` it is
given and how it goes on from their results: it returns, panics, changes or reads
the header map, or calls `WriteHeader` or `Write`. -/
inductive Prog where
  | ret : Prog
  | panic : Prog
  | headerSet (key value : String) (next : Prog) : Prog
  | headerAdd (key value : String) (next : Prog) : Prog
  | headerDel (key : String) (next : Prog) : Prog
  | headerRead (next : Header → Prog) : Prog
  | writeHeader (statusCode : Int) (next : Prog) : Prog
  | write (b : Bytes) (next : Int → error → Prog) : Prog

/-- One call a handler body made on its writer, with what `Write` returned. -/
inductive Event where
  | headerSet (key value : String) : Event
  | headerAdd (key value : String) : Event
  | headerDel (key : String) : Event
  | writeHeader (statusCode : Int) : Event
  | write (b : Bytes) (n : Int) (err : error) : Event

/-- The result of running a handler body: the writer afterwards, the calls made in
order, and whether the body panicked instead of returning. -/
structure Run (W : Type) where
  w : W
  trace : List Event
  panicked : Bool

/-- Runs a handler body against a writer. -/
def Prog.run {W : Type} (rw : Xend.ResponseWriter W) : Prog → W → Run W
  | .ret, w => ⟨w, [], false⟩
  | .panic, w => ⟨w, [], true⟩
  | .headerSet key value next, w =>
    let out := next.run rw (rw.HeaderUpdate w (fun h => h.Set key value))
    { out with trace := Event.headerSet key value :: out.trace }
  | .headerAdd key value next, w =>
    let out := next.run rw (rw.HeaderUpdate w (fun h => h.Add key value))
    { out with trace := Event.headerAdd key value :: out.trace }
  | .headerDel key next, w =>
    let out := next.run rw (rw.HeaderUpdate w (fun h => h.Del key))
    { out with trace := Event.headerDel key :: out.trace }
  | .headerRead next, w => (next (rw.Header w)).run rw w
  | .writeHeader statusCode next, w =>
    let out := next.run rw (rw.WriteHeader w statusCode)
    { out with trace := Event.writeHeader statusCode :: out.trace }
  | .write b next, w =>
    let res := rw.Write w b
    let out := (next res.2.1 res.2.2).run rw res.1
    { out with trace := Event.write b res.2.1 res.2.2 :: out.trace }

/-- One line of the access log, `log.Printf` in `loggingMiddleware`, without the
duration. -/
structure LogLine where
  RemoteAddr : String
  Method : String
  RequestURI : String
  Proto : String
  statusCode : Int
  size : Int
deriving DecidableEq

/-- What one `ServeHTTP` call leaves behind: the writer afterwards, whether the call
panicked, the lines written to the process logger, and for each run of a terminal
handler body the calls it made. -/
structure Outcome (W : Type) where
  w : W
  panicked : Bool
  log : List LogLine
  served : List (List Event)

/-- Go `http.Handler`: `ServeHTTP(w, r)` for whatever writer it is handed. -/
abbrev Handler : Type 1 :=
  (W : Type) → Xend.ResponseWriter W → W → Request → Outcome W

/-- The terminal handler whose body for request `r` is `body r`. -/
def handlerOf (body : Request → Prog) : Handler :=
  fun _ rw w r =>
    let out := (body r).run rw w
    { w := out.w, panicked := out.panicked, log := [], served := [out.trace] }

/-! ## The server's response -/

/-- The response the server hands to the outermost handler, as far as the properties
about the committed status and headers need it: the live header map, whether the
status line and headers have been committed, the committed status and header
snapshot, and the body bytes received.  Informational 1xx codes, the check of the
status code, and the cases in which the server refuses or discards a body are not
part of it. -/
structure Transport where
  header : Header
  wroteHeader : Bool
  status : Int
  sent : Header
  body : Bytes

/-- The server's `WriteHeader`: the first call commits the status and the headers as
they are then; later calls are ignored. -/
def Transport.WriteHeader (t : Transport) (statusCode : Int) : Transport :=
  if t.wroteHeader then t
  else { t with wroteHeader := true, status := statusCode, sent := t.header }

/-- The server's `Write`: commits status 200 first when nothing is committed yet,
then takes all of `b`. -/
def Transport.Write (t : Transport) (b : Bytes) : Transport × Int × error :=
  let t1 := if t.wroteHeader then t else t.WriteHeader 200
  ({ t1 with body := t1.body ++ b }, (b.length : Int), none)

/-- The server's response as an `http.ResponseWriter`. -/
def Transport.iface : ResponseWriter Transport where
  Header := fun t => t.header
  HeaderUpdate := fun t f => { t with header := f t.header }
  Write := Transport.Write
  WriteHeader := Transport.WriteHeader

/-- The response at the start of a request: no headers, nothing committed. -/
def Transport.fresh : Transport :=
  { header := Header.empty, wroteHeader := false, status := 0, sent := Header.empty, body := [] }

/-- What the server does when the outermost handler has returned: a response that
was never committed is committed with status 200. -/
def Transport.finishRequest (t : Transport) : Transport :=
  if t.wroteHeader then t else t.WriteHeader 200

/-! ## The gzip writer -/

/-- The encoder inside the `gzip.Writer` the compression middleware creates, as a
parameter: its state, the state `gzip.NewWriter` starts from (nothing is written at
creation), and for `Write` and `Close` the new state and the chunks the writer hands,
in order, to its destination's `Write`. -/
structure Compressor where
  State : Type
  NewWriter : State
  Write : State → Bytes → State × List Bytes
  Close : State → List Bytes

/-- Passes chunks to a writer's `Write` one after the other and stops at the first
write that reports an error, which is returned. -/
def writeChunks {W : Type} (rw : Xend.ResponseWriter W) (w : W) : List Bytes → W × error
  | [] => (w, none)
  | chunk :: chunks =>
    match (rw.Write w chunk).2.2 with
    | none => writeChunks rw (rw.Write w chunk).1 chunks
    | some e => ((rw.Write w chunk).1, some e)

/-- Go `gzip.Writer`: the encoder state and the sticky error `err`.  The destination
`w` it was created on is the response writer the middleware received; its state is
passed to `Write` and `Close` and returned by them. -/
structure gzipWriter (gz : Compressor) where
  state : gz.State
  err : error

/-- Go `(*gzip.Writer).Write`: after an error nothing is written and the error is
returned again; otherwise the chunks go to the destination, and the call returns
`len(b), nil`, or `0` and the destination's error, which is kept. -/
def gzipWriter.Write {gz : Compressor} {W : Type} (rw : Xend.ResponseWriter W)
    (z : gzipWriter gz) (dst : W) (b : Bytes) : gzipWriter gz × W × Int × error :=
  match z.err with
  | some e => (z, dst, 0, some e)
  | none =>
    match (writeChunks rw dst (gz.Write z.state b).2).2 with
    | none =>
      (⟨(gz.Write z.state b).1, none⟩, (writeChunks rw dst (gz.Write z.state b).2).1,
        (b.length : Int), none)
    | some e =>
      (⟨(gz.Write z.state b).1, some e⟩, (writeChunks rw dst (gz.Write z.state b).2).1,
        0, some e)

/-- Go `(*gzip.Writer).Close`: after an error nothing is written; otherwise the
closing chunks go to the destination. -/
def gzipWriter.Close {gz : Compressor} {W : Type} (rw : Xend.ResponseWriter W)
    (z : gzipWriter gz) (dst : W) : gzipWriter gz × W :=
  match z.err with
  | some _ => (z, dst)
  | none =>
    (⟨z.state, (writeChunks rw dst (gz.Close z.state)).2⟩,
      (writeChunks rw dst (gz.Close z.state)).1)

/-! ## The wrappers of `main.go` -/

/-- Source `responseWriter`: the embedded `http.ResponseWriter` with the recorded
status code and size, both Go `int`. -/
structure responseWriter (W : Type) where
  ResponseWriter : W
  statusCode : Int
  size : Int

/-- Source `(*responseWriter).Write`; `r.size += size` is `int` arithmetic. -/
def responseWriter.Write {W : Type} (sz : IntSize) (rw : Xend.ResponseWriter W)
    (r : responseWriter W) (b : Bytes) : responseWriter W × Int × error :=
  let res := rw.Write r.ResponseWriter b
  ({ r with ResponseWriter := res.1, size := wrapInt sz (r.size + res.2.1) }, res.2.1, res.2.2)

/-- Source `(*responseWriter).WriteHeader`. -/
def responseWriter.WriteHeader {W : Type} (rw : Xend.ResponseWriter W) (r : responseWriter W)
    (statusCode : Int) : responseWriter W :=
  { r with statusCode := statusCode,
           ResponseWriter := rw.WriteHeader r.ResponseWriter statusCode }

/-- The method set of `*responseWriter`: `Header` is promoted from the embedded
writer. -/
def responseWriter.iface {W : Type} (sz : IntSize) (rw : Xend.ResponseWriter W) :
    Xend.ResponseWriter (responseWriter W) where
  Header := fun r => rw.Header r.ResponseWriter
  HeaderUpdate := fun r f => { r with ResponseWriter := rw.HeaderUpdate r.ResponseWriter f }
  Write := responseWriter.Write sz rw
  WriteHeader := responseWriter.WriteHeader rw

/-- Source `compressionResponseWriter`: the gzip writer, the embedded
`http.ResponseWriter` (which is also the gzip writer's destination) and the flag. -/
structure compressionResponseWriter (gz : Compressor) (W : Type) where
  Writer : gzipWriter gz
  ResponseWriter : W
  isCompressed : Bool

/-- Source `(*compressionResponseWriter).WriteHeader`. -/
def compressionResponseWriter.WriteHeader {gz : Compressor} {W : Type}
    (rw : Xend.ResponseWriter W) (w : compressionResponseWriter gz W) (statusCode : Int) :
    compressionResponseWriter gz W :=
  let w1 : compressionResponseWriter gz W :=
    if !w.isCompressed then
      { w with ResponseWriter :=
                 rw.HeaderUpdate w.ResponseWriter (fun h => h.Set "Content-Encoding" "gzip"),
               isCompressed := true }
    else w
  { w1 with ResponseWriter := rw.WriteHeader w1.ResponseWriter statusCode }

/-- Source `(*compressionResponseWriter).Write`: `return w.Writer.Write(b)`. -/
def compressionResponseWriter.Write {gz : Compressor} {W : Type} (rw : Xend.ResponseWriter W)
    (w : compressionResponseWriter gz W) (b : Bytes) :
    compressionResponseWriter gz W × Int × error :=
  let res := gzipWriter.Write rw w.Writer w.ResponseWriter b
  ({ w with Writer := res.1, ResponseWriter := res.2.1 }, res.2.2.1, res.2.2.2)

/-- The method set of `*compressionResponseWriter`: `Header` is promoted from the
embedded response writer. -/
def compressionResponseWriter.iface {gz : Compressor} {W : Type} (rw : Xend.ResponseWriter W) :
    Xend.ResponseWriter (compressionResponseWriter gz W) where
  Header := fun w => rw.Header w.ResponseWriter
  HeaderUpdate := fun w f => { w with ResponseWriter := rw.HeaderUpdate w.ResponseWriter f }
  Write := compressionResponseWriter.Write rw
  WriteHeader := compressionResponseWriter.WriteHeader rw

/-! ## The middlewares of `main.go` -/

/-- Source `loggingMiddleware`.  The log line is written after `next.ServeHTTP`
returns; a panic in `next` unwinds past it. -/
def loggingMiddleware (sz : IntSize) (next : Handler) : Handler :=
  fun W rw w r =>
    let res : responseWriter W := { ResponseWriter := w, statusCode := 200, size := 0 }
    let out := next (responseWriter W) (responseWriter.iface sz rw) res r
    if out.panicked then
      { w := out.w.ResponseWriter, panicked := true, log := out.log, served := out.served }
    else
      { w := out.w.ResponseWriter, panicked := false,
        log := out.log ++ [{ RemoteAddr := r.RemoteAddr, Method := r.Method,
                             RequestURI := r.RequestURI, Proto := r.Proto,
                             statusCode := out.w.statusCode, size := out.w.size }],
        served := out.served }

/-- Source `compressionMiddleware`.  The deferred `compressor.Close()` runs when the
function is left, also by a panic of `next`; its error is dropped. -/
def compressionMiddleware (gz : Compressor) (next : Handler) : Handler :=
  fun W rw w r =>
    if !Contains (r.Header.Get "Accept-Encoding") "gzip" then
      next W rw w r
    else
      let w1 := rw.HeaderUpdate w (fun h => h.Set "Content-Encoding" "gzip")
      let res : compressionResponseWriter gz W :=
        { Writer := ⟨gz.NewWriter, none⟩, ResponseWriter := w1, isCompressed := false }
      let out := next (compressionResponseWriter gz W) (compressionResponseWriter.iface rw) res r
      { w := (gzipWriter.Close rw out.w.Writer out.w.ResponseWriter).2,
        panicked := out.panicked, log := out.log, served := out.served }

/-- Source `securityMiddleware`. -/
def securityMiddleware (Separator : Char) (next : Handler) : Handler :=
  fun W rw w r =>
    if checkHiddenDir Separator r.URL.Path then
      let w1 := rw.WriteHeader w 404
      let w2 := (rw.Write w1 (bytesOf "404 page not found")).1
      { w := w2, panicked := false, log := [], served := [] }
    else
      next W rw w r

/-- Source `composeMiddlewares`. -/
def composeMiddlewares (sz : IntSize) (Separator : Char) (gz : Compressor)
    (handler : Handler) : Handler :=
  loggingMiddleware sz (securityMiddleware Separator (compressionMiddleware gz handler))

/-! ## Reading a handler's calls -/

/-- The byte slices a handler body passed to `Write`, in order. -/
def written : List Event → List Bytes
  | [] => []
  | Event.write b _ _ :: rest => b :: written rest
  | _ :: rest => written rest

/-- The sum of the byte counts `Write` returned to the handler body. -/
def reported : List Event → Int
  | [] => 0
  | Event.write _ n _ :: rest => n + reported rest
  | _ :: rest => reported rest

/-- The code of the last `WriteHeader` call, `dflt` when there was none. -/
def lastStatus (dflt : Int) : List Event → Int
  | [] => dflt
  | Event.writeHeader statusCode :: rest => lastStatus statusCode rest
  | _ :: rest => lastStatus dflt rest

/-- The status a server commits for these calls: the code of the first `WriteHeader`
when it comes before any `Write`, otherwise 200. -/
def committedStatus : List Event → Int
  | [] => 200
  | Event.writeHeader statusCode :: _ => statusCode
  | Event.write _ _ _ :: _ => 200
  | _ :: rest => committedStatus rest

/-- No `WriteHeader` call among these calls. -/
def noWriteHeader : List Event → Bool
  | [] => true
  | Event.writeHeader _ :: _ => false
  | _ :: rest => noWriteHeader rest

/-- No `WriteHeader` call comes after the first `WriteHeader` or `Write` call. -/
def noLateWriteHeader : List Event → Bool
  | [] => true
  | Event.writeHeader _ :: rest => noWriteHeader rest
  | Event.write _ _ _ :: rest => noWriteHeader rest
  | _ :: rest => noLateWriteHeader rest

/-- The header map a handler body's own `Set`, `Add` and `Del` calls produce from `h`. -/
def replayHeader (h : Header) : List Event → Header
  | [] => h
  | Event.headerSet key value :: rest => replayHeader (h.Set key value) rest
  | Event.headerAdd key value :: rest => replayHeader (h.Add key value) rest
  | Event.headerDel key :: rest => replayHeader (h.Del key) rest
  | _ :: rest => replayHeader h rest

/-- The handler body calls `WriteHeader` before any `Write`. -/
def writeHeaderFirst : List Event → Bool
  | [] => false
  | Event.writeHeader _ :: _ => true
  | Event.write _ _ _ :: _ => false
  | _ :: rest => writeHeaderFirst rest

/-! ## Reading a gzip writer -/

/-- The gzip writer after the given `Write` calls, with the chunks it emitted. -/
def Compressor.feed (gz : Compressor) (s : gz.State) : List Bytes → gz.State × List Bytes
  | [] => (s, [])
  | b :: rest =>
    let res := gz.Write s b
    let out := gz.feed res.1 rest
    (out.1, res.2 ++ out.2)

/-- A small gzip writer for concrete runs: a two-byte header before the first
payload (or on `Close` when nothing was written), the payload as it is, and a
one-byte trailer on `Close`. -/
def storedGzip : Compressor where
  State := Bool
  NewWriter := false
  Write := fun wroteHeader b => (true, if wroteHeader then [b] else [[31, 139], b])
  Close := fun wroteHeader => if wroteHeader then [[0]] else [[31, 139], [0]]

/-! ## Reading an `Accept-Encoding` value -/

/-- The content codings listed in an `Accept-Encoding` value: the comma-separated
elements, each cut at its first `;` and stripped of spaces. -/
def listedCodings (value : String) : List (List Char) :=
  (SplitSeq value.toList ',').map
    (fun element => ((SplitSeq element ';').headD []).filter (fun c => c ≠ ' '))

/-- A request with the given path and `Accept-Encoding` values. -/
def getRequest (path : String) (acceptEncoding : List String) : Request :=
  { Method := "GET", URL := ⟨path⟩, RequestURI := path, Proto := "HTTP/1.1",
    RemoteAddr := "127.0.0.1:4000",
    Header := ⟨fun k => if k = "Accept-Encoding" then acceptEncoding else []⟩ }

/-- The function `body` reads the bytes a writer has taken so far: `Write` appends
the slice it is given, the other calls leave the bytes alone. -/
structure BodyView {W : Type} (rw : ResponseWriter W) (body : W → Bytes) : Prop where
  write : ∀ w b, body (rw.Write w b).1 = body w ++ b
  writeHeader : ∀ w statusCode, body (rw.WriteHeader w statusCode) = body w
  headerUpdate : ∀ w f, body (rw.HeaderUpdate w f) = body w

/-- The server's call of the composed handler: `main` registers
`composeMiddlewares(...)` and the server calls it with the fresh response of the
request. -/
def serve (sz : IntSize) (Separator : Char) (gz : Compressor) (handler : Handler)
    (r : Request) : Outcome Transport :=
  composeMiddlewares sz Separator gz handler Transport Transport.iface Transport.fresh r

/-- The calls a handler body makes before its first `WriteHeader` or `Write`. -/
def beforeCommit : List Event → List Event
  | [] => []
  | Event.writeHeader _ :: _ => []
  | Event.write _ _ _ :: _ => []
  | e :: rest => e :: beforeCommit rest

/-! ## Observing the writes a response writer receives -/

/-- One `Write` call a response writer received: the slice and what it reported. -/
structure WriteRecord where
  b : Bytes
  n : Int
  err : error

/-- The response writer `rw` with a record of every `Write` call it receives; the
record is kept beside the writer's state and changes nothing in what `rw` does. -/
def recording {W : Type} (rw : ResponseWriter W) : ResponseWriter (W × List WriteRecord) where
  Header := fun s => rw.Header s.1
  HeaderUpdate := fun s f => (rw.HeaderUpdate s.1 f, s.2)
  Write := fun s b =>
    ((( rw.Write s.1 b).1, s.2 ++ [⟨b, (rw.Write s.1 b).2.1, (rw.Write s.1 b).2.2⟩]),
      (rw.Write s.1 b).2.1, (rw.Write s.1 b).2.2)
  WriteHeader := fun s statusCode => (rw.WriteHeader s.1 statusCode, s.2)

/-- The number of bytes a response writer reported as written over the recorded
calls. -/
def delivered (records : List WriteRecord) : Int :=
  (records.map (fun rec => rec.n)).sum

/-- A response that takes no body, as the server's does after a 204 or 304 status:
`Write` commits like `Transport.Write` and then reports `0` and an error. -/
def Transport.bodyless : ResponseWriter Transport where
  Header := fun t => t.header
  HeaderUpdate := fun t f => { t with header := f t.header }
  Write := fun t _ =>
    (if t.wroteHeader then t else t.WriteHeader 200, 0,
      some "http: request method or response status code does not allow body")
  WriteHeader := Transport.WriteHeader

/-- The function `view` reads the slices a writer has been handed, one entry for each
`Write`: `Write` appends the slice and never fails, the other calls leave the entries
alone. -/
structure ChunkView {W : Type} (rw : ResponseWriter W) (view : W → List Bytes) : Prop where
  write : ∀ w b, view (rw.Write w b).1 = view w ++ [b]
  noError : ∀ w b, (rw.Write w b).2.2 = none
  writeHeader : ∀ w statusCode, view (rw.WriteHeader w statusCode) = view w
  headerUpdate : ∀ w f, view (rw.HeaderUpdate w f) = view w

/-- Two response writers behave alike on states related by `Rel`: they show the same
header map, every call leads to related states, and `Write` returns the same
results. -/
structure Sim {W1 W2 : Type} (rw1 : ResponseWriter W1) (rw2 : ResponseWriter W2)
    (Rel : W1 → W2 → Prop) : Prop where
  header : ∀ w1 w2, Rel w1 w2 → rw1.Header w1 = rw2.Header w2
  headerUpdate : ∀ w1 w2 f, Rel w1 w2 → Rel (rw1.HeaderUpdate w1 f) (rw2.HeaderUpdate w2 f)
  write : ∀ w1 w2 b, Rel w1 w2 →
    Rel (rw1.Write w1 b).1 (rw2.Write w2 b).1 ∧ (rw1.Write w1 b).2 = (rw2.Write w2 b).2
  writeHeader : ∀ w1 w2 statusCode, Rel w1 w2 →
    Rel (rw1.WriteHeader w1 statusCode) (rw2.WriteHeader w2 statusCode)

/-! ## Splitting and joining -/

theorem SplitSeq_ne_nil (s : List Char) (sep : Char) : SplitSeq s sep ≠ [] := by
  cases s with
  | nil => simp [SplitSeq]
  | cons x rest =>
    unfold SplitSeq
    split
    · simp
    · split <;> simp

theorem SplitSeq_of_not_mem (sep : Char) (a : List Char) (h : sep ∉ a) :
    SplitSeq a sep = [a] := by
  induction a with
  | nil => simp [SplitSeq]
  | cons x rest ih =>
    have hx : x ≠ sep := fun e => h (by simp [e])
    have hr : sep ∉ rest := fun e => h (by simp [e])
    simp [SplitSeq, hx, ih hr]

theorem SplitSeq_append_sep (sep : Char) (a rest : List Char) (h : sep ∉ a) :
    SplitSeq (a ++ sep :: rest) sep = a :: SplitSeq rest sep := by
  induction a with
  | nil => simp [SplitSeq]
  | cons x tl ih =>
    have hx : x ≠ sep := fun e => h (by simp [e])
    have hr : sep ∉ tl := fun e => h (by simp [e])
    simp [SplitSeq, hx, ih hr]

theorem SplitSeq_Join (sep : Char) (segs : List (List Char)) (hne : segs ≠ [])
    (hfree : ∀ a ∈ segs, sep ∉ a) : SplitSeq (Join sep segs) sep = segs := by
  induction segs with
  | nil => exact absurd rfl hne
  | cons a tl ih =>
    cases tl with
    | nil => simpa [Join] using SplitSeq_of_not_mem sep a (hfree a (by simp))
    | cons b rest =>
      have ha : sep ∉ a := hfree a (by simp)
      have := ih (by simp) (fun c hc => hfree c (List.mem_cons_of_mem _ hc))
      simp [Join, SplitSeq_append_sep sep a _ ha, this]

theorem Join_SplitSeq (sep : Char) (s : List Char) : Join sep (SplitSeq s sep) = s := by
  induction s with
  | nil => simp [SplitSeq, Join]
  | cons x rest ih =>
    unfold SplitSeq
    split
    · next hx =>
      cases hs : SplitSeq rest sep with
      | nil => exact absurd hs (SplitSeq_ne_nil rest sep)
      | cons piece pieces =>
        rw [hs] at ih
        simp [Join, ih, hx]
    · cases hs : SplitSeq rest sep with
      | nil => exact absurd hs (SplitSeq_ne_nil rest sep)
      | cons piece pieces =>
        rw [hs] at ih
        cases pieces with
        | nil => simpa [Join] using ih
        | cons q qs =>
          simp only [Join] at ih ⊢
          simp [← ih]

theorem SplitSeq_sep_free (sep : Char) (s : List Char) :
    ∀ a ∈ SplitSeq s sep, sep ∉ a := by
  induction s with
  | nil => simp [SplitSeq]
  | cons x rest ih =>
    unfold SplitSeq
    split
    · intro a ha
      simp only [List.mem_cons] at ha
      rcases ha with rfl | ha
      · simp
      · exact ih a ha
    · next hx =>
      cases hs : SplitSeq rest sep with
      | nil => exact absurd hs (SplitSeq_ne_nil rest sep)
      | cons piece pieces =>
        rw [hs] at ih
        intro a ha
        simp only [List.mem_cons] at ha
        rcases ha with rfl | ha
        · intro hmem
          simp only [List.mem_cons] at hmem
          rcases hmem with e | e
          · exact hx e.symm
          · exact ih piece (by simp) e
        · exact ih a (by simp [ha])

theorem HasPrefix_iff (a : List Char) (c : Char) : HasPrefix a c = true ↔ a.head? = some c := by
  cases a <;> simp [HasPrefix]

theorem SplitSeq_replicate (sep : Char) (n : Nat) :
    ∀ a ∈ SplitSeq (List.replicate n sep) sep, a = [] := by
  induction n with
  | zero => simp [SplitSeq]
  | succ k ih =>
    intro a ha
    simp only [List.replicate_succ, SplitSeq, if_true, List.mem_cons] at ha
    rcases ha with rfl | ha
    · rfl
    · exact ih a ha

/-! ## C1 -/

/-- C1: on a target whose path separator is `/`, `checkHiddenDir p` is true exactly
when the path left after dropping one leading `/` decomposes into `/`-free segments
(joined by `/`) one of which starts with a dot; empty segments never count, so the
filter is false on `""`, `"a/b/c"`, `"/a/b"` and on every path made only of
separators, and true on `".git/config"`, `"a/.ssh/id"` and `"/.env"`. -/
theorem checkHiddenDir_iff_dot_segment (p : String) :
    (checkHiddenDir '/' p = true ↔
      ∃ segs : List (List Char),
        (∀ a ∈ segs, '/' ∉ a) ∧ Join '/' segs = TrimPrefix p.toList '/' ∧
        ∃ a ∈ segs, a.head? = some '.') ∧
    HasPrefix [] '.' = false ∧
    checkHiddenDir '/' "" = false ∧
    checkHiddenDir '/' "a/b/c" = false ∧
    checkHiddenDir '/' "/a/b" = false ∧
    (∀ n : Nat, checkHiddenDir '/' (String.mk (List.replicate n '/')) = false) ∧
    checkHiddenDir '/' ".git/config" = true ∧
    checkHiddenDir '/' "a/.ssh/id" = true ∧
    checkHiddenDir '/' "/.env" = true := by
  refine ⟨⟨?_, ?_⟩, ?_, by decide, by decide, by decide, ?_, by decide, by decide, by decide⟩
  · intro h
    simp only [checkHiddenDir, checkHiddenDirChars, List.any_eq_true] at h
    obtain ⟨a, ha, hdot⟩ := h
    exact ⟨SplitSeq (TrimPrefix p.toList '/') '/', SplitSeq_sep_free _ _, Join_SplitSeq _ _,
      a, ha, (HasPrefix_iff a '.').1 hdot⟩
  · rintro ⟨segs, hfree, hjoin, a, ha, hdot⟩
    have hne : segs ≠ [] := by
      intro e
      simp [e] at ha
    simp only [checkHiddenDir, checkHiddenDirChars, List.any_eq_true]
    rw [← hjoin, SplitSeq_Join '/' segs hne hfree]
    exact ⟨a, ha, (HasPrefix_iff a '.').2 hdot⟩
  · rfl
  · intro n
    simp only [checkHiddenDir, checkHiddenDirChars]
    rw [Bool.eq_false_iff]
    intro h
    simp only [List.any_eq_true] at h
    obtain ⟨a, ha, hdot⟩ := h
    cases n with
    | zero =>
      simp [TrimPrefix, SplitSeq] at ha
      simp [ha, HasPrefix] at hdot
    | succ k =>
      have : TrimPrefix (List.replicate (k + 1) '/') '/' = List.replicate k '/' := by
        simp [List.replicate_succ, TrimPrefix]
      simp only [String.toList] at ha
      rw [this] at ha
      have := SplitSeq_replicate '/' k a ha
      simp [this, HasPrefix] at hdot

/-- With the Windows separator `\\` a URL path is not split at `/`: `a/.ssh/id` passes
the filter, while a dot at the very start is still caught. -/
theorem checkHiddenDir_backslash_separator :
    checkHiddenDir '\\' "a/.ssh/id" = false ∧ checkHiddenDir '\\' "/.env" = true := by
  decide


/-! ## `int` arithmetic -/

theorem wrapInt_of_inRange (sz : IntSize) (x : Int)
    (hlo : -(sz.maxInt + 1) ≤ x) (hhi : x ≤ sz.maxInt) : wrapInt sz x = x := by
  cases sz <;> simp [wrapInt, IntSize.bits, IntSize.maxInt] at * <;> omega

theorem wrapInt_add_wrapInt (sz : IntSize) (x y : Int) :
    wrapInt sz (wrapInt sz x + y) = wrapInt sz (x + y) := by
  cases sz <;> simp [wrapInt, IntSize.bits] <;> omega

theorem wrapInt_zero (sz : IntSize) : wrapInt sz 0 = 0 := by
  cases sz <;> simp [wrapInt, IntSize.bits]

theorem wrapInt_wrapInt (sz : IntSize) (x : Int) : wrapInt sz (wrapInt sz x) = wrapInt sz x := by
  have := wrapInt_add_wrapInt sz x 0
  simpa using this

/-! ## Properties kept by every call -/

theorem run_preserves {W : Type} (rw : ResponseWriter W) (P : W → Prop)
    (hH : ∀ w f, P w → P (rw.HeaderUpdate w f))
    (hW : ∀ w b, P w → P (rw.Write w b).1)
    (hC : ∀ w statusCode, P w → P (rw.WriteHeader w statusCode))
    (p : Prog) (w : W) (hw : P w) : P (p.run rw w).w := by
  induction p generalizing w with
  | ret => exact hw
  | panic => exact hw
  | headerSet key value next ih => exact ih _ (hH _ _ hw)
  | headerAdd key value next ih => exact ih _ (hH _ _ hw)
  | headerDel key next ih => exact ih _ (hH _ _ hw)
  | headerRead next ih => exact ih _ _ hw
  | writeHeader statusCode next ih => exact ih _ (hC _ _ hw)
  | write b next ih => exact ih _ _ _ (hW _ _ hw)

theorem writeChunks_preserves {W : Type} (rw : ResponseWriter W) (P : W → Prop)
    (hW : ∀ w b, P w → P (rw.Write w b).1) (chunks : List Bytes) (w : W) (hw : P w) :
    P (writeChunks rw w chunks).1 := by
  induction chunks generalizing w with
  | nil => exact hw
  | cons chunk rest ih =>
    simp only [writeChunks]
    split
    · exact ih _ (hW _ _ hw)
    · exact hW _ _ hw

theorem gzipWriter_Write_preserves {gz : Compressor} {W : Type} (rw : ResponseWriter W)
    (P : W → Prop) (hW : ∀ w b, P w → P (rw.Write w b).1) (z : gzipWriter gz) (dst : W)
    (b : Bytes) (hw : P dst) : P (gzipWriter.Write rw z dst b).2.1 := by
  simp only [gzipWriter.Write]
  split
  · exact hw
  · split <;> exact writeChunks_preserves rw P hW _ _ hw

theorem gzipWriter_Close_preserves {gz : Compressor} {W : Type} (rw : ResponseWriter W)
    (P : W → Prop) (hW : ∀ w b, P w → P (rw.Write w b).1) (z : gzipWriter gz) (dst : W)
    (hw : P dst) : P (gzipWriter.Close rw z dst).2 := by
  simp only [gzipWriter.Close]
  split
  · exact hw
  · exact writeChunks_preserves rw P hW _ _ hw

theorem compression_run_preserves {W : Type} (rw : ResponseWriter W) (P : W → Prop)
    (hH : ∀ w f, P w → P (rw.HeaderUpdate w f))
    (hW : ∀ w b, P w → P (rw.Write w b).1)
    (hC : ∀ w statusCode, P w → P (rw.WriteHeader w statusCode))
    (gz : Compressor) (p : Prog) (cw : compressionResponseWriter gz W)
    (h : P cw.ResponseWriter) :
    P (p.run (compressionResponseWriter.iface rw) cw).w.ResponseWriter := by
  refine run_preserves (compressionResponseWriter.iface rw) (fun c => P c.ResponseWriter)
    ?_ ?_ ?_ p cw h
  · intro c f hc
    exact hH _ _ hc
  · intro c b hc
    exact gzipWriter_Write_preserves rw P hW _ _ _ hc
  · intro c statusCode hc
    simp only [compressionResponseWriter.iface, compressionResponseWriter.WriteHeader]
    split
    · exact hC _ _ (hH _ _ hc)
    · exact hC _ _ hc

theorem compressionMiddleware_preserves {W : Type} (rw : ResponseWriter W) (P : W → Prop)
    (hH : ∀ w f, P w → P (rw.HeaderUpdate w f))
    (hW : ∀ w b, P w → P (rw.Write w b).1)
    (hC : ∀ w statusCode, P w → P (rw.WriteHeader w statusCode))
    (gz : Compressor) (body : Request → Prog) (w : W) (r : Request) (h : P w) :
    P (compressionMiddleware gz (handlerOf body) W rw w r).w := by
  simp only [compressionMiddleware, handlerOf]
  split
  · exact run_preserves rw P hH hW hC (body r) w h
  · exact gzipWriter_Close_preserves rw P hW _ _
      (compression_run_preserves rw P hH hW hC gz (body r) _ (hH _ _ h))

/-! ## The instrumented writer -/

theorem logging_run {W : Type} (sz : IntSize) (rw : ResponseWriter W) (p : Prog)
    (r0 : responseWriter W) (hr0 : wrapInt sz r0.size = r0.size) :
    (p.run (responseWriter.iface sz rw) r0).w.ResponseWriter = (p.run rw r0.ResponseWriter).w ∧
    (p.run (responseWriter.iface sz rw) r0).trace = (p.run rw r0.ResponseWriter).trace ∧
    (p.run (responseWriter.iface sz rw) r0).panicked = (p.run rw r0.ResponseWriter).panicked ∧
    (p.run (responseWriter.iface sz rw) r0).w.statusCode =
      lastStatus r0.statusCode (p.run (responseWriter.iface sz rw) r0).trace ∧
    (p.run (responseWriter.iface sz rw) r0).w.size =
      wrapInt sz (r0.size + reported (p.run (responseWriter.iface sz rw) r0).trace) := by
  induction p generalizing r0 with
  | ret => simp [Prog.run, lastStatus, reported, hr0]
  | panic => simp [Prog.run, lastStatus, reported, hr0]
  | headerSet key value next ih =>
    have := ih ((responseWriter.iface sz rw).HeaderUpdate r0 (fun h => h.Set key value)) hr0
    simpa [Prog.run, lastStatus, reported, responseWriter.iface] using this
  | headerAdd key value next ih =>
    have := ih ((responseWriter.iface sz rw).HeaderUpdate r0 (fun h => h.Add key value)) hr0
    simpa [Prog.run, lastStatus, reported, responseWriter.iface] using this
  | headerDel key next ih =>
    have := ih ((responseWriter.iface sz rw).HeaderUpdate r0 (fun h => h.Del key)) hr0
    simpa [Prog.run, lastStatus, reported, responseWriter.iface] using this
  | headerRead next ih =>
    have := ih (rw.Header r0.ResponseWriter) r0 hr0
    simpa [Prog.run, responseWriter.iface] using this
  | writeHeader statusCode next ih =>
    have := ih ((responseWriter.iface sz rw).WriteHeader r0 statusCode) hr0
    simpa [Prog.run, lastStatus, reported, responseWriter.iface, responseWriter.WriteHeader]
      using this
  | write b next ih =>
    have := ih (rw.Write r0.ResponseWriter b).2.1 (rw.Write r0.ResponseWriter b).2.2
      ((responseWriter.iface sz rw).Write r0 b).1
      (by simp [responseWriter.iface, responseWriter.Write, wrapInt_wrapInt])
    simpa [Prog.run, lastStatus, reported, responseWriter.iface, responseWriter.Write,
      wrapInt_add_wrapInt, Int.add_assoc] using this

theorem reported_complete {W : Type} (rw : ResponseWriter W)
    (hfull : ∀ w b, (rw.Write w b).2.1 = (b.length : Int)) (p : Prog) (w : W) :
    reported (p.run rw w).trace =
      (((written (p.run rw w).trace).map List.length).sum : Nat) := by
  induction p generalizing w with
  | ret => simp [Prog.run, reported, written]
  | panic => simp [Prog.run, reported, written]
  | headerSet key value next ih => simpa [Prog.run, reported, written] using ih _
  | headerAdd key value next ih => simpa [Prog.run, reported, written] using ih _
  | headerDel key next ih => simpa [Prog.run, reported, written] using ih _
  | headerRead next ih => simpa [Prog.run] using ih _ _
  | writeHeader statusCode next ih => simpa [Prog.run, reported, written] using ih _
  | write b next ih =>
    simp only [Prog.run, reported, written, List.map_cons, List.sum_cons, hfull w b]
    rw [ih (b.length : Int) (rw.Write w b).2.2 (rw.Write w b).1]
    push_cast
    rfl

theorem responseWriter_two_writes (sz : IntSize) (b1 b2 : Bytes) :
    ((Prog.write b1 fun _ _ => .write b2 fun _ _ => .ret).run
        (responseWriter.iface sz Transport.iface) ⟨Transport.fresh, 200, 0⟩).w.size =
      wrapInt sz ((b1.length : Int) + (b2.length : Int)) ∧
    reported ((Prog.write b1 fun _ _ => .write b2 fun _ _ => .ret).run
        Transport.iface Transport.fresh).trace = (b1.length : Int) + (b2.length : Int) ∧
    ((Prog.write b1 fun _ _ => .ret).run
        (responseWriter.iface sz Transport.iface) ⟨Transport.fresh, 200, 0⟩).w.size =
      wrapInt sz (b1.length : Int) := by
  refine ⟨?_, ?_, ?_⟩
  · simp [Prog.run, responseWriter.iface, responseWriter.Write, Transport.iface,
      Transport.Write, wrapInt_add_wrapInt]
  · simp [Prog.run, Transport.iface, Transport.Write, reported]
  · simp [Prog.run, responseWriter.iface, responseWriter.Write, Transport.iface,
      Transport.Write]

/-! ## C6 -/

/-- C6, as stated, fails: on a 32-bit target, two `Write` calls of `2^30` bytes each,
both complete, leave the recorded size at `-2^31`, which is neither the sum of the
reported counts (`2^31`) nor at least the size recorded after the first call
(`2^30`). -/
theorem responseWriter_size_wraps_around :
    ((Prog.write (List.replicate (2 ^ 30) 0) fun _ _ =>
        .write (List.replicate (2 ^ 30) 0) fun _ _ => .ret).run
        (responseWriter.iface .bits32 Transport.iface) ⟨Transport.fresh, 200, 0⟩).w.size =
      -2147483648 ∧
    reported ((Prog.write (List.replicate (2 ^ 30) 0) fun _ _ =>
        .write (List.replicate (2 ^ 30) 0) fun _ _ => .ret).run
        Transport.iface Transport.fresh).trace = 2147483648 ∧
    ((Prog.write (List.replicate (2 ^ 30) 0) fun _ _ => .ret).run
        (responseWriter.iface .bits32 Transport.iface) ⟨Transport.fresh, 200, 0⟩).w.size =
      1073741824 := by
  obtain ⟨h1, h2, h3⟩ := responseWriter_two_writes .bits32
    (List.replicate (2 ^ 30) 0) (List.replicate (2 ^ 30) 0)
  rw [List.length_replicate] at h1 h2 h3
  refine ⟨h1.trans (by decide), h2.trans (by decide), h3.trans (by decide)⟩

/-- C6, amended: for every handler body run on the `responseWriter` that
`loggingMiddleware` creates (status 200, size 0) over any underlying writer, the
recorded `statusCode` is the code of the last `WriteHeader` call, or 200 when there
was none; the recorded `size` is the sum of the byte counts the underlying writer
reported, reduced to the target's `int`, and is that sum itself when the sum lies in
the range of `int` (then also the sum of the lengths passed, when every underlying
write is complete); the underlying writer ends in the state it reaches when it
receives the calls directly, and the handler sees the same results; a `Write` returns
what the underlying `Write` returned and does not lower `size` when the reported
count is not negative and the new total is at most the largest `int`; `WriteHeader`
leaves `size` alone and forwards the code. -/
theorem responseWriter_records_status_and_size {W : Type} (sz : IntSize)
    (rw : ResponseWriter W) (w : W) (p : Prog) :
    (p.run (responseWriter.iface sz rw) ⟨w, 200, 0⟩).w.statusCode =
      lastStatus 200 (p.run rw w).trace ∧
    (p.run (responseWriter.iface sz rw) ⟨w, 200, 0⟩).w.size =
      wrapInt sz (reported (p.run rw w).trace) ∧
    (-(sz.maxInt + 1) ≤ reported (p.run rw w).trace →
      reported (p.run rw w).trace ≤ sz.maxInt →
      (p.run (responseWriter.iface sz rw) ⟨w, 200, 0⟩).w.size = reported (p.run rw w).trace) ∧
    ((∀ u b, (rw.Write u b).2.1 = (b.length : Int)) →
      reported (p.run rw w).trace ≤ sz.maxInt →
      (p.run (responseWriter.iface sz rw) ⟨w, 200, 0⟩).w.size =
        (((written (p.run rw w).trace).map List.length).sum : Nat)) ∧
    (p.run (responseWriter.iface sz rw) ⟨w, 200, 0⟩).w.ResponseWriter = (p.run rw w).w ∧
    (p.run (responseWriter.iface sz rw) ⟨w, 200, 0⟩).trace = (p.run rw w).trace ∧
    (p.run (responseWriter.iface sz rw) ⟨w, 200, 0⟩).panicked = (p.run rw w).panicked ∧
    (∀ (r : responseWriter W) (b : Bytes),
      (responseWriter.Write sz rw r b).1.size =
        wrapInt sz (r.size + (rw.Write r.ResponseWriter b).2.1) ∧
      (0 ≤ (rw.Write r.ResponseWriter b).2.1 → -(sz.maxInt + 1) ≤ r.size →
        r.size + (rw.Write r.ResponseWriter b).2.1 ≤ sz.maxInt →
        r.size ≤ (responseWriter.Write sz rw r b).1.size ∧
        (responseWriter.Write sz rw r b).1.size = r.size + (rw.Write r.ResponseWriter b).2.1) ∧
      (responseWriter.Write sz rw r b).1.statusCode = r.statusCode ∧
      (responseWriter.Write sz rw r b).1.ResponseWriter = (rw.Write r.ResponseWriter b).1 ∧
      (responseWriter.Write sz rw r b).2 = (rw.Write r.ResponseWriter b).2) ∧
    (∀ (r : responseWriter W) (statusCode : Int),
      (responseWriter.WriteHeader rw r statusCode).size = r.size ∧
      (responseWriter.WriteHeader rw r statusCode).statusCode = statusCode ∧
      (responseWriter.WriteHeader rw r statusCode).ResponseWriter =
        rw.WriteHeader r.ResponseWriter statusCode) := by
  obtain ⟨h1, h2, h3, h4, h5⟩ := logging_run sz rw p ⟨w, 200, 0⟩ (wrapInt_zero sz)
  simp only [Int.zero_add] at h5
  rw [h2] at h4 h5
  refine ⟨h4, h5, ?_, ?_, h1, h2, h3, ?_, ?_⟩
  · intro hlo hhi
    rw [h5]
    exact wrapInt_of_inRange sz _ hlo hhi
  · intro hfull hhi
    rw [h5]
    have hrep := reported_complete rw hfull p w
    rw [wrapInt_of_inRange sz _ ?_ hhi]
    · exact hrep
    · rw [hrep]
      have : (0 : Int) ≤ sz.maxInt + 1 := by
        cases sz <;> simp [IntSize.maxInt, IntSize.bits]
      have h0 : (0 : Int) ≤ (((written (p.run rw w).trace).map List.length).sum : Nat) :=
        Int.natCast_nonneg _
      omega
  · intro r b
    refine ⟨rfl, ?_, rfl, rfl, rfl⟩
    intro hn hlo hhi
    have hw : (responseWriter.Write sz rw r b).1.size =
        r.size + (rw.Write r.ResponseWriter b).2.1 := by
      show wrapInt sz (r.size + (rw.Write r.ResponseWriter b).2.1) = _
      exact wrapInt_of_inRange sz _ (by omega) hhi
    exact ⟨by rw [hw]; omega, hw⟩
  · intro r statusCode
    simp [responseWriter.WriteHeader]

/-- Witness for the amended C6: on a 64-bit target over the server's response, whose
writes are complete, a body that calls `WriteHeader(404)`, `Write` of two bytes,
`WriteHeader(500)` and `Write` of three bytes is recorded with status 500 and
size 5. -/
theorem responseWriter_records_status_and_size_witness :
    (∀ u b, (Transport.iface.Write u b).2.1 = (b.length : Int)) ∧
    ((Prog.writeHeader 404 (.write [1, 2] fun _ _ => .writeHeader 500
        (.write [3, 4, 5] fun _ _ => .ret))).run
      (responseWriter.iface .bits64 Transport.iface) ⟨Transport.fresh, 200, 0⟩).w.statusCode
      = 500 ∧
    ((Prog.writeHeader 404 (.write [1, 2] fun _ _ => .writeHeader 500
        (.write [3, 4, 5] fun _ _ => .ret))).run
      (responseWriter.iface .bits64 Transport.iface) ⟨Transport.fresh, 200, 0⟩).w.size = 5 :=
  ⟨fun _ _ => rfl,
   (responseWriter_records_status_and_size .bits64 Transport.iface Transport.fresh
      (Prog.writeHeader 404 (.write [1, 2] fun _ _ => .writeHeader 500
        (.write [3, 4, 5] fun _ _ => .ret)))).1.trans (by decide),
   ((responseWriter_records_status_and_size .bits64 Transport.iface Transport.fresh
      (Prog.writeHeader 404 (.write [1, 2] fun _ _ => .writeHeader 500
        (.write [3, 4, 5] fun _ _ => .ret)))).2.2.2.1 (fun _ _ => rfl) (by decide)).trans
      (by decide)⟩


/-! ## The server's response under a handler -/

theorem Transport_bodyView : BodyView Transport.iface Transport.body := by
  constructor
  · intro w b
    simp [Transport.iface, Transport.Write]
    split <;> simp [Transport.WriteHeader, *]
  · intro w c
    simp only [Transport.iface, Transport.WriteHeader]
    split <;> rfl
  · intro w f
    rfl

theorem run_body {W : Type} {rw : ResponseWriter W} {body : W → Bytes}
    (hv : BodyView rw body) (p : Prog) (w : W) :
    body (p.run rw w).w = body w ++ (written (p.run rw w).trace).flatten := by
  induction p generalizing w with
  | ret => simp [Prog.run, written]
  | panic => simp [Prog.run, written]
  | headerSet key value next ih => simp [Prog.run, written, ih, hv.headerUpdate]
  | headerAdd key value next ih => simp [Prog.run, written, ih, hv.headerUpdate]
  | headerDel key next ih => simp [Prog.run, written, ih, hv.headerUpdate]
  | headerRead next ih => simp [Prog.run, ih]
  | writeHeader statusCode next ih => simp [Prog.run, written, ih, hv.writeHeader]
  | write b next ih => simp [Prog.run, written, ih, hv.write]

theorem Transport_WriteHeader_committed (t : Transport) (statusCode : Int)
    (ht : t.wroteHeader = true) : t.WriteHeader statusCode = t := by
  simp [Transport.WriteHeader, ht]

theorem Transport_Write_committed (t : Transport) (b : Bytes) (ht : t.wroteHeader = true) :
    (t.Write b).1 = { t with body := t.body ++ b } := by
  simp [Transport.Write, ht]

theorem run_transport_header (p : Prog) (t : Transport) :
    (p.run Transport.iface t).w.header = replayHeader t.header (p.run Transport.iface t).trace := by
  induction p generalizing t with
  | ret => rfl
  | panic => rfl
  | headerSet key value next ih => simpa [Prog.run, replayHeader] using ih _
  | headerAdd key value next ih => simpa [Prog.run, replayHeader] using ih _
  | headerDel key next ih => simpa [Prog.run, replayHeader] using ih _
  | headerRead next ih => simpa [Prog.run] using ih _ _
  | writeHeader statusCode next ih =>
    have := ih (Transport.iface.WriteHeader t statusCode)
    have hh : (Transport.iface.WriteHeader t statusCode).header = t.header := by
      simp only [Transport.iface, Transport.WriteHeader]
      split <;> rfl
    rw [hh] at this
    simpa [Prog.run, replayHeader] using this
  | write b next ih =>
    have := ih (Transport.iface.Write t b).2.1 (Transport.iface.Write t b).2.2
      (Transport.iface.Write t b).1
    have hh : (Transport.iface.Write t b).1.header = t.header := by
      simp only [Transport.iface, Transport.Write, Transport.WriteHeader]
      split <;> rfl
    rw [hh] at this
    simpa [Prog.run, replayHeader] using this

theorem run_transport_committed (p : Prog) (t : Transport) (ht : t.wroteHeader = true) :
    (p.run Transport.iface t).w.wroteHeader = true ∧
    (p.run Transport.iface t).w.status = t.status ∧
    (p.run Transport.iface t).w.sent = t.sent := by
  refine run_preserves Transport.iface
    (fun u => u.wroteHeader = true ∧ u.status = t.status ∧ u.sent = t.sent) ?_ ?_ ?_ p t
    ⟨ht, rfl, rfl⟩
  · intro w f hw
    exact hw
  · intro w b hw
    simp only [Transport.iface]
    rw [Transport_Write_committed w b hw.1]
    exact hw
  · intro w c hw
    simp only [Transport.iface]
    rw [Transport_WriteHeader_committed w c hw.1]
    exact hw

theorem run_transport_status (p : Prog) (t : Transport) (ht : t.wroteHeader = false) :
    (p.run Transport.iface t).w.finishRequest.status =
      committedStatus (p.run Transport.iface t).trace := by
  induction p generalizing t with
  | ret => simp [Prog.run, committedStatus, Transport.finishRequest, Transport.WriteHeader, ht]
  | panic => simp [Prog.run, committedStatus, Transport.finishRequest, Transport.WriteHeader, ht]
  | headerSet key value next ih =>
    simpa [Prog.run, committedStatus] using ih (Transport.iface.HeaderUpdate t _) ht
  | headerAdd key value next ih =>
    simpa [Prog.run, committedStatus] using ih (Transport.iface.HeaderUpdate t _) ht
  | headerDel key next ih =>
    simpa [Prog.run, committedStatus] using ih (Transport.iface.HeaderUpdate t _) ht
  | headerRead next ih => simpa [Prog.run] using ih _ _ ht
  | writeHeader statusCode next ih =>
    have hc : (Transport.iface.WriteHeader t statusCode).wroteHeader = true := by
      simp [Transport.iface, Transport.WriteHeader, ht]
    have hs : (Transport.iface.WriteHeader t statusCode).status = statusCode := by
      simp [Transport.iface, Transport.WriteHeader, ht]
    obtain ⟨h1, h2, _⟩ := run_transport_committed next _ hc
    simp [Prog.run, committedStatus, Transport.finishRequest, h1, h2, hs]
  | write b next ih =>
    have hc : (Transport.iface.Write t b).1.wroteHeader = true := by
      simp [Transport.iface, Transport.Write, Transport.WriteHeader, ht]
    have hs : (Transport.iface.Write t b).1.status = 200 := by
      simp [Transport.iface, Transport.Write, Transport.WriteHeader, ht]
    obtain ⟨h1, h2, _⟩ := run_transport_committed
      (next (Transport.iface.Write t b).2.1 (Transport.iface.Write t b).2.2) _ hc
    simp [Prog.run, committedStatus, Transport.finishRequest, h1, h2, hs]

theorem lastStatus_noWriteHeader (dflt : Int) (trace : List Event)
    (h : noWriteHeader trace = true) : lastStatus dflt trace = dflt := by
  induction trace with
  | nil => rfl
  | cons e rest ih =>
    cases e <;> simp_all [noWriteHeader, lastStatus]

theorem lastStatus_eq_committedStatus (trace : List Event)
    (h : noLateWriteHeader trace = true) : lastStatus 200 trace = committedStatus trace := by
  induction trace with
  | nil => rfl
  | cons e rest ih =>
    cases e with
    | headerSet key value => simpa [lastStatus, committedStatus] using ih h
    | headerAdd key value => simpa [lastStatus, committedStatus] using ih h
    | headerDel key => simpa [lastStatus, committedStatus] using ih h
    | writeHeader statusCode =>
      simpa [lastStatus, committedStatus] using lastStatus_noWriteHeader statusCode rest h
    | write b n err =>
      simpa [lastStatus, committedStatus] using lastStatus_noWriteHeader 200 rest h

/-! ## C2 -/

/-- C2: for every terminal handler `h` and every request whose path makes
`checkHiddenDir` true, whatever its headers, the composed handler commits status 404,
the body is exactly the 18 bytes `404 page not found`, no header at all (so no
`Content-Encoding`) is sent, and no terminal handler body is run; the outcome is the
same for every `h`. -/
theorem composeMiddlewares_hidden_path_not_found (sz : IntSize) (Separator : Char)
    (gz : Compressor) (h : Handler) (r : Request) (hhidden : checkHiddenDir Separator r.URL.Path = true) :
    (serve sz Separator gz h r).w.wroteHeader = true ∧
    (serve sz Separator gz h r).w.status = 404 ∧
    (serve sz Separator gz h r).w.body = bytesOf "404 page not found" ∧
    (serve sz Separator gz h r).w.body.length = 18 ∧
    (∀ key, (serve sz Separator gz h r).w.sent.values key = []) ∧
    (∀ key, (serve sz Separator gz h r).w.header.values key = []) ∧
    (serve sz Separator gz h r).served = [] ∧
    (serve sz Separator gz h r).panicked = false ∧
    (∀ h2 : Handler, serve sz Separator gz h2 r = serve sz Separator gz h r) := by
  have hrun : ∀ h2 : Handler, serve sz Separator gz h2 r =
      { w := { header := Header.empty, wroteHeader := true, status := 404, sent := Header.empty,
               body := bytesOf "404 page not found" },
        panicked := false,
        log := [{ RemoteAddr := r.RemoteAddr, Method := r.Method, RequestURI := r.RequestURI,
                  Proto := r.Proto, statusCode := 404, size := 18 }],
        served := [] } := by
    intro h2
    have hlen : ((bytesOf "404 page not found").length : Int) = 18 := by decide
    simp only [serve, composeMiddlewares, loggingMiddleware, securityMiddleware, hhidden,
      responseWriter.iface, responseWriter.WriteHeader, responseWriter.Write, Transport.iface,
      Transport.WriteHeader, Transport.Write, Transport.fresh, if_true, Bool.false_eq_true,
      if_false, List.nil_append, Int.zero_add, hlen]
    cases sz <;> rfl
  rw [hrun h]
  refine ⟨rfl, rfl, rfl, (by decide : (bytesOf "404 page not found").length = 18), fun _ => rfl, fun _ => rfl, rfl, rfl, fun h2 => hrun h2⟩

/-- Witness for C2: a request for `/.git/config` that advertises gzip, with a
terminal handler that would write a body. -/
theorem composeMiddlewares_hidden_path_not_found_witness :
    checkHiddenDir '/' (getRequest "/.git/config" ["gzip"]).URL.Path = true ∧
    (serve .bits64 '/' storedGzip (handlerOf fun _ => .write [1, 2] fun _ _ => .ret)
      (getRequest "/.git/config" ["gzip"])).w.status = 404 ∧
    (serve .bits64 '/' storedGzip (handlerOf fun _ => .write [1, 2] fun _ _ => .ret)
      (getRequest "/.git/config" ["gzip"])).w.body = bytesOf "404 page not found" ∧
    (serve .bits64 '/' storedGzip (handlerOf fun _ => .write [1, 2] fun _ _ => .ret)
      (getRequest "/.git/config" ["gzip"])).served = [] :=
  ⟨by decide,
   (composeMiddlewares_hidden_path_not_found .bits64 '/' storedGzip
      (handlerOf fun _ => .write [1, 2] fun _ _ => .ret)
      (getRequest "/.git/config" ["gzip"]) (by decide)).2.1,
   (composeMiddlewares_hidden_path_not_found .bits64 '/' storedGzip
      (handlerOf fun _ => .write [1, 2] fun _ _ => .ret)
      (getRequest "/.git/config" ["gzip"]) (by decide)).2.2.1,
   (composeMiddlewares_hidden_path_not_found .bits64 '/' storedGzip
      (handlerOf fun _ => .write [1, 2] fun _ _ => .ret)
      (getRequest "/.git/config" ["gzip"]) (by decide)).2.2.2.2.2.2.1⟩

/-! ## C4 -/

theorem compressionMiddleware_skip (gz : Compressor) (next : Handler) (W : Type)
    (rw : ResponseWriter W) (w : W) (r : Request)
    (h : Contains (r.Header.Get "Accept-Encoding") "gzip" = false) :
    compressionMiddleware gz next W rw w r = next W rw w r := by
  simp [compressionMiddleware, h]

/-- C4: for a request without an `Accept-Encoding` header, `compressionMiddleware`
is the downstream handler called with the original writer and request, for every
handler and writer; over the server's response the state afterwards is the one the
handler body leaves when run directly: the body grows by exactly the bytes the
handler wrote, the header map is what the handler's own calls make of it (no
`Content-Encoding` is added), and the committed status is the handler's. -/
theorem compressionMiddleware_without_accept_encoding (gz : Compressor) (body : Request → Prog)
    (t : Transport) (r : Request) (hnone : r.Header.values "Accept-Encoding" = []) :
    (∀ (next : Handler) (W : Type) (rw : ResponseWriter W) (w : W),
      compressionMiddleware gz next W rw w r = next W rw w r) ∧
    (compressionMiddleware gz (handlerOf body) Transport Transport.iface t r).served =
      [((body r).run Transport.iface t).trace] ∧
    (compressionMiddleware gz (handlerOf body) Transport Transport.iface t r).w =
      ((body r).run Transport.iface t).w ∧
    (compressionMiddleware gz (handlerOf body) Transport Transport.iface t r).w.body =
      t.body ++ (written ((body r).run Transport.iface t).trace).flatten ∧
    (compressionMiddleware gz (handlerOf body) Transport Transport.iface t r).w.header =
      replayHeader t.header ((body r).run Transport.iface t).trace ∧
    (t.wroteHeader = false →
      (compressionMiddleware gz (handlerOf body) Transport Transport.iface t r).w.finishRequest.status =
        committedStatus ((body r).run Transport.iface t).trace) := by
  have hno : Contains (r.Header.Get "Accept-Encoding") "gzip" = false := by
    simp only [Header.Get, hnone]
    decide
  have hskip := fun (next : Handler) (W : Type) (rw : ResponseWriter W) (w : W) =>
    compressionMiddleware_skip gz next W rw w r hno
  rw [hskip (handlerOf body) Transport Transport.iface t]
  refine ⟨hskip, rfl, rfl, ?_, ?_, ?_⟩
  · exact run_body Transport_bodyView (body r) t
  · exact run_transport_header (body r) t
  · intro ht
    exact run_transport_status (body r) t ht

/-- Witness for C4: a request with no `Accept-Encoding` header and a handler that
sets `Content-Type`, answers 201 and writes two bytes. -/
theorem compressionMiddleware_without_accept_encoding_witness :
    (getRequest "/a" []).Header.values "Accept-Encoding" = [] ∧
    (compressionMiddleware storedGzip
        (handlerOf fun _ => .headerSet "Content-Type" "text/plain"
          (.writeHeader 201 (.write [104, 105] fun _ _ => .ret)))
        Transport Transport.iface Transport.fresh (getRequest "/a" [])).w.body =
      Transport.fresh.body ++ (written ((Prog.headerSet "Content-Type" "text/plain"
          (.writeHeader 201 (.write [104, 105] fun _ _ => .ret))).run
        Transport.iface Transport.fresh).trace).flatten :=
  ⟨by decide,
   (compressionMiddleware_without_accept_encoding storedGzip
      (fun _ => .headerSet "Content-Type" "text/plain"
          (.writeHeader 201 (.write [104, 105] fun _ _ => .ret)))
      Transport.fresh (getRequest "/a" []) (by decide)).2.2.2.1⟩

/-! ## C5 -/

/-- C5: the code compresses for clients that do not advertise gzip.  The value
`notgzip` does not list the coding `gzip`, yet the middleware sets
`Content-Encoding: gzip` and compresses the two bytes `hi`, where the handler alone
sends them as they are with no `Content-Encoding`; the same happens for `gzip;q=0`,
by which the client refuses gzip. -/
theorem compressionMiddleware_compresses_on_notgzip :
    "gzip".toList ∉ listedCodings "notgzip" ∧
    (compressionMiddleware storedGzip (handlerOf fun _ => .write (bytesOf "hi") fun _ _ => .ret)
        Transport Transport.iface Transport.fresh (getRequest "/a" ["notgzip"])).w.sent.values
      "Content-Encoding" = ["gzip"] ∧
    (compressionMiddleware storedGzip (handlerOf fun _ => .write (bytesOf "hi") fun _ _ => .ret)
        Transport Transport.iface Transport.fresh (getRequest "/a" ["notgzip"])).w.body =
      [31, 139, 104, 105, 0] ∧
    (handlerOf (fun _ => .write (bytesOf "hi") fun _ _ => .ret)
        Transport Transport.iface Transport.fresh (getRequest "/a" ["notgzip"])).w.sent.values
      "Content-Encoding" = [] ∧
    (handlerOf (fun _ => .write (bytesOf "hi") fun _ _ => .ret)
        Transport Transport.iface Transport.fresh (getRequest "/a" ["notgzip"])).w.body =
      [104, 105] ∧
    (compressionMiddleware storedGzip (handlerOf fun _ => .write (bytesOf "hi") fun _ _ => .ret)
        Transport Transport.iface Transport.fresh (getRequest "/a" ["notgzip"])).w.body ≠
      (handlerOf (fun _ => .write (bytesOf "hi") fun _ _ => .ret)
        Transport Transport.iface Transport.fresh (getRequest "/a" ["notgzip"])).w.body ∧
    (compressionMiddleware storedGzip (handlerOf fun _ => .write (bytesOf "hi") fun _ _ => .ret)
        Transport Transport.iface Transport.fresh (getRequest "/a" ["gzip;q=0"])).w.sent.values
      "Content-Encoding" = ["gzip"] := by
  decide

/-! ## C7 -/

/-- C7, as stated, fails: a handler that calls `WriteHeader(404)` and then
`WriteHeader(500)` is logged with status 500 while the client receives 404. -/
theorem loggingMiddleware_logs_500_client_gets_404 :
    (loggingMiddleware .bits64 (handlerOf fun _ => .writeHeader 404 (.writeHeader 500 .ret))
        Transport Transport.iface Transport.fresh (getRequest "/a" [])).log =
      [⟨"127.0.0.1:4000", "GET", "/a", "HTTP/1.1", 500, 0⟩] ∧
    (loggingMiddleware .bits64 (handlerOf fun _ => .writeHeader 404 (.writeHeader 500 .ret))
        Transport Transport.iface Transport.fresh (getRequest "/a" [])).w.finishRequest.status =
      404 ∧
    ∀ line ∈ (loggingMiddleware .bits64 (handlerOf fun _ => .writeHeader 404 (.writeHeader 500 .ret))
        Transport Transport.iface Transport.fresh (getRequest "/a" [])).log,
      line.statusCode ≠
        (loggingMiddleware .bits64 (handlerOf fun _ => .writeHeader 404 (.writeHeader 500 .ret))
          Transport Transport.iface Transport.fresh
          (getRequest "/a" [])).w.finishRequest.status := by
  decide

/-- C7, amended: for every request and every downstream handler body, run on a
response that is not yet committed, `loggingMiddleware` emits exactly one log line
when the handler returns (none when it panics); the status in that line is the code of
the last `WriteHeader` call, or 200 when there was none; the client receives the
status of the first `WriteHeader` call, or 200 when a `Write` came first or nothing
was called; the two agree whenever the handler makes no `WriteHeader` call after its
first `WriteHeader` or `Write` call. -/
theorem loggingMiddleware_logs_last_status (sz : IntSize) (body : Request → Prog)
    (t : Transport) (r : Request) (ht : t.wroteHeader = false) :
    (loggingMiddleware sz (handlerOf body) Transport Transport.iface t r).served =
      [((body r).run Transport.iface t).trace] ∧
    (loggingMiddleware sz (handlerOf body) Transport Transport.iface t r).panicked =
      ((body r).run Transport.iface t).panicked ∧
    (loggingMiddleware sz (handlerOf body) Transport Transport.iface t r).log =
      (if ((body r).run Transport.iface t).panicked then []
       else [{ RemoteAddr := r.RemoteAddr, Method := r.Method, RequestURI := r.RequestURI,
               Proto := r.Proto,
               statusCode := lastStatus 200 ((body r).run Transport.iface t).trace,
               size := wrapInt sz (reported ((body r).run Transport.iface t).trace) }]) ∧
    (loggingMiddleware sz (handlerOf body) Transport Transport.iface t r).w.finishRequest.status =
      committedStatus ((body r).run Transport.iface t).trace ∧
    (noLateWriteHeader ((body r).run Transport.iface t).trace = true →
      lastStatus 200 ((body r).run Transport.iface t).trace =
        committedStatus ((body r).run Transport.iface t).trace) := by
  obtain ⟨h1, h2, h3, h4, h5⟩ := logging_run sz Transport.iface (body r) ⟨t, 200, 0⟩
    (wrapInt_zero sz)
  simp only [Int.zero_add] at h5
  have hw : (loggingMiddleware sz (handlerOf body) Transport Transport.iface t r).w =
      ((body r).run Transport.iface t).w := by
    simp only [loggingMiddleware, handlerOf]
    split <;> exact h1
  refine ⟨?_, ?_, ?_, ?_, lastStatus_eq_committedStatus _⟩
  · simp only [loggingMiddleware, handlerOf]
    split <;> simp [h2]
  · simp only [loggingMiddleware, handlerOf]
    split
    · next hp => simp [← h3, hp]
    · next hp => simp [← h3, hp]
  · simp only [loggingMiddleware, handlerOf]
    rw [h3, h4, h5, h2]
    split <;> simp
  · rw [hw]
    exact run_transport_status (body r) t ht

/-- Witness for the amended C7: a handler that answers 404 once and writes a body is
logged with the status the client receives. -/
theorem loggingMiddleware_logs_last_status_witness :
    Transport.fresh.wroteHeader = false ∧
    (loggingMiddleware .bits64 (handlerOf fun _ => .writeHeader 404 (.write [1, 2, 3] fun _ _ => .ret))
        Transport Transport.iface Transport.fresh (getRequest "/a" [])).log =
      [⟨"127.0.0.1:4000", "GET", "/a", "HTTP/1.1", 404, 3⟩] ∧
    (loggingMiddleware .bits64 (handlerOf fun _ => .writeHeader 404 (.write [1, 2, 3] fun _ _ => .ret))
        Transport Transport.iface Transport.fresh (getRequest "/a" [])).w.finishRequest.status =
      404 :=
  ⟨rfl,
   (loggingMiddleware_logs_last_status .bits64
      (fun _ => .writeHeader 404 (.write [1, 2, 3] fun _ _ => .ret))
      Transport.fresh (getRequest "/a" []) rfl).2.2.1.trans (by decide),
   (loggingMiddleware_logs_last_status .bits64
      (fun _ => .writeHeader 404 (.write [1, 2, 3] fun _ _ => .ret))
      Transport.fresh (getRequest "/a" []) rfl).2.2.2.1.trans (by decide)⟩


/-! ## The compressing writer over the server's response -/

theorem committed_HeaderUpdate (status : Int) (sent : Header) (t : Transport)
    (f : Header → Header) (ht : t.wroteHeader = true ∧ t.status = status ∧ t.sent = sent) :
    (Transport.iface.HeaderUpdate t f).wroteHeader = true ∧
      (Transport.iface.HeaderUpdate t f).status = status ∧
      (Transport.iface.HeaderUpdate t f).sent = sent := ht

theorem committed_Write (status : Int) (sent : Header) (t : Transport) (b : Bytes)
    (ht : t.wroteHeader = true ∧ t.status = status ∧ t.sent = sent) :
    (Transport.iface.Write t b).1.wroteHeader = true ∧
      (Transport.iface.Write t b).1.status = status ∧
      (Transport.iface.Write t b).1.sent = sent := by
  simp only [Transport.iface]
  rw [Transport_Write_committed t b ht.1]
  exact ht

theorem committed_WriteHeader (status : Int) (sent : Header) (t : Transport) (statusCode : Int)
    (ht : t.wroteHeader = true ∧ t.status = status ∧ t.sent = sent) :
    (Transport.iface.WriteHeader t statusCode).wroteHeader = true ∧
      (Transport.iface.WriteHeader t statusCode).status = status ∧
      (Transport.iface.WriteHeader t statusCode).sent = sent := by
  simp only [Transport.iface]
  rw [Transport_WriteHeader_committed t statusCode ht.1]
  exact ht

theorem compression_run_committed (gz : Compressor) (p : Prog)
    (cw : compressionResponseWriter gz Transport) (hc : cw.ResponseWriter.wroteHeader = true) :
    (p.run (compressionResponseWriter.iface Transport.iface) cw).w.ResponseWriter.wroteHeader
        = true ∧
      (p.run (compressionResponseWriter.iface Transport.iface) cw).w.ResponseWriter.status =
        cw.ResponseWriter.status ∧
      (p.run (compressionResponseWriter.iface Transport.iface) cw).w.ResponseWriter.sent =
        cw.ResponseWriter.sent :=
  compression_run_preserves Transport.iface
    (fun u => u.wroteHeader = true ∧ u.status = cw.ResponseWriter.status ∧
      u.sent = cw.ResponseWriter.sent)
    (fun u f hu => committed_HeaderUpdate _ _ u f hu)
    (fun u b hu => committed_Write _ _ u b hu)
    (fun u c hu => committed_WriteHeader _ _ u c hu) gz p cw ⟨hc, rfl, rfl⟩

theorem compression_run_writeHeaderFirst (gz : Compressor) (p : Prog)
    (cw : compressionResponseWriter gz Transport) (hu : cw.ResponseWriter.wroteHeader = false)
    (hc : cw.isCompressed = false)
    (hf : writeHeaderFirst (p.run (compressionResponseWriter.iface Transport.iface) cw).trace
      = true) :
    (p.run (compressionResponseWriter.iface Transport.iface) cw).w.ResponseWriter.wroteHeader
        = true ∧
      (p.run (compressionResponseWriter.iface Transport.iface) cw).w.ResponseWriter.sent =
        (replayHeader cw.ResponseWriter.header
          (beforeCommit (p.run (compressionResponseWriter.iface Transport.iface) cw).trace)).Set
          "Content-Encoding" "gzip" := by
  induction p generalizing cw with
  | ret => simp [Prog.run, writeHeaderFirst] at hf
  | panic => simp [Prog.run, writeHeaderFirst] at hf
  | headerSet key value next ih =>
    simp only [Prog.run, writeHeaderFirst] at hf
    simpa [Prog.run, beforeCommit, replayHeader] using
      ih ((compressionResponseWriter.iface Transport.iface).HeaderUpdate cw
        (fun h => h.Set key value)) hu hc hf
  | headerAdd key value next ih =>
    simp only [Prog.run, writeHeaderFirst] at hf
    simpa [Prog.run, beforeCommit, replayHeader] using
      ih ((compressionResponseWriter.iface Transport.iface).HeaderUpdate cw
        (fun h => h.Add key value)) hu hc hf
  | headerDel key next ih =>
    simp only [Prog.run, writeHeaderFirst] at hf
    simpa [Prog.run, beforeCommit, replayHeader] using
      ih ((compressionResponseWriter.iface Transport.iface).HeaderUpdate cw
        (fun h => h.Del key)) hu hc hf
  | headerRead next ih => exact ih _ cw hu hc hf
  | writeHeader statusCode next ih =>
    have hstep : ((compressionResponseWriter.iface Transport.iface).WriteHeader cw
          statusCode).ResponseWriter.wroteHeader = true ∧
        ((compressionResponseWriter.iface Transport.iface).WriteHeader cw
          statusCode).ResponseWriter.sent =
          cw.ResponseWriter.header.Set "Content-Encoding" "gzip" := by
      simp [compressionResponseWriter.iface, compressionResponseWriter.WriteHeader, hc,
        Transport.iface, Transport.WriteHeader, hu]
    obtain ⟨h1, _, h3⟩ := compression_run_committed gz next _ hstep.1
    simp only [Prog.run, beforeCommit, replayHeader]
    exact ⟨h1, h3.trans hstep.2⟩
  | write b next ih => simp [Prog.run, writeHeaderFirst] at hf

theorem compression_run_other_header (gz : Compressor) (p : Prog)
    (cw : compressionResponseWriter gz Transport) (key : String)
    (hkey : key ≠ "Content-Encoding") (h0 : Header)
    (hagree : cw.ResponseWriter.header.values key = h0.values key) :
    (p.run (compressionResponseWriter.iface Transport.iface) cw).w.ResponseWriter.header.values
        key =
      (replayHeader h0 (p.run (compressionResponseWriter.iface Transport.iface) cw).trace).values
        key := by
  induction p generalizing cw h0 with
  | ret => exact hagree
  | panic => exact hagree
  | headerSet k value next ih =>
    simp only [Prog.run, replayHeader]
    apply ih
    simp [compressionResponseWriter.iface, Transport.iface, Header.Set, hagree]
  | headerAdd k value next ih =>
    simp only [Prog.run, replayHeader]
    apply ih
    simp [compressionResponseWriter.iface, Transport.iface, Header.Add, hagree]
  | headerDel k next ih =>
    simp only [Prog.run, replayHeader]
    apply ih
    simp [compressionResponseWriter.iface, Transport.iface, Header.Del, hagree]
  | headerRead next ih => exact ih _ cw h0 hagree
  | writeHeader statusCode next ih =>
    simp only [Prog.run, replayHeader]
    apply ih
    rw [← hagree]
    simp only [compressionResponseWriter.iface, compressionResponseWriter.WriteHeader,
      Transport.iface, Transport.WriteHeader]
    split <;> split <;> simp [Header.Set, hkey]
  | write b next ih =>
    simp only [Prog.run, replayHeader]
    apply ih
    rw [← hagree]
    exact gzipWriter_Write_preserves Transport.iface
      (fun u => u.header.values key = cw.ResponseWriter.header.values key)
      (fun u c hu => by
        rw [← hu]
        simp only [Transport.iface, Transport.Write, Transport.WriteHeader]
        split <;> rfl) _ _ _ rfl

theorem compressionMiddleware_gzip_eq (gz : Compressor) (body : Request → Prog) (W : Type)
    (rw : ResponseWriter W) (w : W) (r : Request)
    (hgz : Contains (r.Header.Get "Accept-Encoding") "gzip" = true) :
    compressionMiddleware gz (handlerOf body) W rw w r =
      { w := (gzipWriter.Close rw
          ((body r).run (compressionResponseWriter.iface rw)
            ⟨⟨gz.NewWriter, none⟩, rw.HeaderUpdate w (fun h => h.Set "Content-Encoding" "gzip"),
              false⟩).w.Writer
          ((body r).run (compressionResponseWriter.iface rw)
            ⟨⟨gz.NewWriter, none⟩, rw.HeaderUpdate w (fun h => h.Set "Content-Encoding" "gzip"),
              false⟩).w.ResponseWriter).2,
        panicked := ((body r).run (compressionResponseWriter.iface rw)
            ⟨⟨gz.NewWriter, none⟩, rw.HeaderUpdate w (fun h => h.Set "Content-Encoding" "gzip"),
              false⟩).panicked,
        log := [],
        served := [((body r).run (compressionResponseWriter.iface rw)
            ⟨⟨gz.NewWriter, none⟩, rw.HeaderUpdate w (fun h => h.Set "Content-Encoding" "gzip"),
              false⟩).trace] } := by
  simp [compressionMiddleware, handlerOf, hgz]

theorem replayHeader_agree (key : String) (trace : List Event) (h1 h2 : Header)
    (h : h1.values key = h2.values key) :
    (replayHeader h1 trace).values key = (replayHeader h2 trace).values key := by
  induction trace generalizing h1 h2 with
  | nil => exact h
  | cons e rest ih =>
    cases e with
    | headerSet k v => exact ih _ _ (by simp [Header.Set, h])
    | headerAdd k v => exact ih _ _ (by simp [Header.Add, h])
    | headerDel k => exact ih _ _ (by simp [Header.Del, h])
    | writeHeader c => exact ih _ _ h
    | write b n err => exact ih _ _ h


/-! ## C3 -/

/-- C3: the code sends a gzip body without the header the claim requires.  For a
request that accepts gzip, a handler that deletes `Content-Encoding` and then writes
`hi` gets a response whose body is the gzip stream but which carries no
`Content-Encoding` header: `compressionResponseWriter.Write` goes to the gzip writer
without setting the header.  The same handler with a `WriteHeader(200)` before its
`Write` gets the header, which `compressionResponseWriter.WriteHeader` sets again. -/
theorem compressionMiddleware_gzip_body_without_encoding_header :
    Contains ((getRequest "/a" ["gzip"]).Header.Get "Accept-Encoding") "gzip" = true ∧
    (compressionMiddleware storedGzip
        (handlerOf fun _ => .headerDel "Content-Encoding" (.write (bytesOf "hi") fun _ _ => .ret))
        Transport Transport.iface Transport.fresh
        (getRequest "/a" ["gzip"])).w.finishRequest.sent.values "Content-Encoding" = [] ∧
    (compressionMiddleware storedGzip
        (handlerOf fun _ => .headerDel "Content-Encoding" (.write (bytesOf "hi") fun _ _ => .ret))
        Transport Transport.iface Transport.fresh
        (getRequest "/a" ["gzip"])).w.finishRequest.sent.values "Content-Encoding" ≠ ["gzip"] ∧
    (compressionMiddleware storedGzip
        (handlerOf fun _ => .headerDel "Content-Encoding" (.write (bytesOf "hi") fun _ _ => .ret))
        Transport Transport.iface Transport.fresh
        (getRequest "/a" ["gzip"])).w.body = [31, 139, 104, 105, 0] ∧
    (compressionMiddleware storedGzip
        (handlerOf fun _ => .headerDel "Content-Encoding"
          (.writeHeader 200 (.write (bytesOf "hi") fun _ _ => .ret)))
        Transport Transport.iface Transport.fresh
        (getRequest "/a" ["gzip"])).w.finishRequest.sent.values "Content-Encoding" = ["gzip"] := by
  decide

/-! ## C8 -/

/-- C8: the code lets a downstream handler override the negotiated encoding.  Once
gzip is negotiated, a handler that sets `Content-Encoding` to `identity` through
`Header()` and then calls `Write` has its own value committed with the response and
the flag `isCompressed` is never set; the same handler with a `WriteHeader(200)`
before its `Write` is committed with `gzip`. -/
theorem compressionMiddleware_handler_overrides_encoding :
    Contains ((getRequest "/a" ["gzip"]).Header.Get "Accept-Encoding") "gzip" = true ∧
    (compressionMiddleware storedGzip
        (handlerOf fun _ => .headerSet "Content-Encoding" "identity"
          (.write (bytesOf "hi") fun _ _ => .ret))
        Transport Transport.iface Transport.fresh
        (getRequest "/a" ["gzip"])).w.finishRequest.sent.values "Content-Encoding"
      = ["identity"] ∧
    (compressionMiddleware storedGzip
        (handlerOf fun _ => .headerSet "Content-Encoding" "identity"
          (.write (bytesOf "hi") fun _ _ => .ret))
        Transport Transport.iface Transport.fresh
        (getRequest "/a" ["gzip"])).w.finishRequest.sent.values "Content-Encoding"
      ≠ ["gzip"] ∧
    ((Prog.headerSet "Content-Encoding" "identity" (.write (bytesOf "hi") fun _ _ => .ret)).run
        (compressionResponseWriter.iface Transport.iface)
        (⟨⟨storedGzip.NewWriter, none⟩, Transport.fresh, false⟩ :
          compressionResponseWriter storedGzip Transport)).w.isCompressed = false ∧
    (compressionMiddleware storedGzip
        (handlerOf fun _ => .headerSet "Content-Encoding" "identity"
          (.writeHeader 200 (.write (bytesOf "hi") fun _ _ => .ret)))
        Transport Transport.iface Transport.fresh
        (getRequest "/a" ["gzip"])).w.finishRequest.sent.values "Content-Encoding"
      = ["gzip"] := by
  decide


/-! ## C10 -/

/-- C10: when gzip is negotiated, for every downstream handler body and every header
key other than `Content-Encoding`, the header map of the underlying response writer
ends with exactly the values the handler's own `Set`, `Add` and `Del` calls give that
key, and when the handler calls `WriteHeader` before any `Write` the header set
committed with the response has, under that key, the values the handler had set by
then: a `Content-Length` the handler sets goes out unchanged. -/
theorem compressionMiddleware_keeps_other_headers (gz : Compressor) (body : Request → Prog)
    (t : Transport) (r : Request)
    (hgz : Contains (r.Header.Get "Accept-Encoding") "gzip" = true)
    (key : String) (hkey : key ≠ "Content-Encoding") :
    ∃ trace,
      (compressionMiddleware gz (handlerOf body) Transport Transport.iface t r).served = [trace] ∧
      (compressionMiddleware gz (handlerOf body) Transport Transport.iface t r).w.header.values key =
        (replayHeader t.header trace).values key ∧
      (t.wroteHeader = false → writeHeaderFirst trace = true →
        (compressionMiddleware gz (handlerOf body) Transport Transport.iface t
          r).w.finishRequest.sent.values key =
          (replayHeader t.header (beforeCommit trace)).values key) := by
  have hagree : (Transport.iface.HeaderUpdate t
      (fun h => h.Set "Content-Encoding" "gzip")).header.values key = t.header.values key := by
    simp [Transport.iface, Header.Set, hkey]
  refine ⟨((body r).run (compressionResponseWriter.iface Transport.iface)
      ⟨⟨gz.NewWriter, none⟩, Transport.iface.HeaderUpdate t (fun h => h.Set "Content-Encoding" "gzip"),
        false⟩).trace, ?_, ?_, ?_⟩
  · rw [compressionMiddleware_gzip_eq gz body Transport Transport.iface t r hgz]
  · rw [compressionMiddleware_gzip_eq gz body Transport Transport.iface t r hgz]
    have h1 := compression_run_other_header gz (body r)
      ⟨⟨gz.NewWriter, none⟩, Transport.iface.HeaderUpdate t (fun h => h.Set "Content-Encoding" "gzip"),
        false⟩ key hkey t.header hagree
    rw [← h1]
    exact gzipWriter_Close_preserves Transport.iface
      (fun u => u.header.values key = _)
      (fun u c hu => by
        rw [← hu]
        simp only [Transport.iface, Transport.Write, Transport.WriteHeader]
        split <;> rfl) _ _ rfl
  · intro ht hf
    rw [compressionMiddleware_gzip_eq gz body Transport Transport.iface t r hgz]
    obtain ⟨h1, h2⟩ := compression_run_writeHeaderFirst gz (body r)
      ⟨⟨gz.NewWriter, none⟩, Transport.iface.HeaderUpdate t (fun h => h.Set "Content-Encoding" "gzip"),
        false⟩ (by simpa [Transport.iface] using ht) rfl hf
    obtain ⟨h3, _, h5⟩ := gzipWriter_Close_preserves Transport.iface
      (fun u => u.wroteHeader = true ∧ u.status = _ ∧ u.sent = _)
      (fun u b hu => committed_Write _ _ u b hu)
      ((body r).run (compressionResponseWriter.iface Transport.iface)
        ⟨⟨gz.NewWriter, none⟩,
          Transport.iface.HeaderUpdate t (fun h => h.Set "Content-Encoding" "gzip"),
          false⟩).w.Writer _ ⟨h1, rfl, rfl⟩
    simp only [Transport.finishRequest, h3, if_true]
    rw [h5, h2]
    simp only [Header.Set, hkey, if_false]
    exact replayHeader_agree key _ _ _ hagree

/-- Witness for C10: the handler sets `Content-Length: 5`, calls `WriteHeader(200)`
and writes five bytes; the response goes out with `Content-Length: 5` although its
body is the eight-byte compressed stream. -/
theorem compressionMiddleware_keeps_other_headers_witness :
    Contains ((getRequest "/a" ["gzip"]).Header.Get "Accept-Encoding") "gzip" = true ∧
    "Content-Length" ≠ "Content-Encoding" ∧
    (compressionMiddleware storedGzip
        (handlerOf fun _ => .headerSet "Content-Length" "5"
          (.writeHeader 200 (.write (bytesOf "hello") fun _ _ => .ret)))
        Transport Transport.iface Transport.fresh
        (getRequest "/a" ["gzip"])).w.finishRequest.sent.values "Content-Length" = ["5"] ∧
    (compressionMiddleware storedGzip
        (handlerOf fun _ => .headerSet "Content-Length" "5"
          (.writeHeader 200 (.write (bytesOf "hello") fun _ _ => .ret)))
        Transport Transport.iface Transport.fresh
        (getRequest "/a" ["gzip"])).w.body.length = 8 := by
  refine ⟨by decide, by decide, ?_, by decide⟩
  obtain ⟨trace, hs, _, h⟩ := compressionMiddleware_keeps_other_headers storedGzip
    (fun _ => .headerSet "Content-Length" "5"
      (.writeHeader 200 (.write (bytesOf "hello") fun _ _ => .ret)))
    Transport.fresh (getRequest "/a" ["gzip"]) (by decide) "Content-Length" (by decide)
  have e : [trace] = [[Event.headerSet "Content-Length" "5", Event.writeHeader 200,
      Event.write (bytesOf "hello") 5 none]] := hs.symm
  have htr := List.head_eq_of_cons_eq e
  subst htr
  exact (h rfl rfl).trans (by decide)


/-! ## C9 -/

theorem composeMiddlewares_visible_eq (sz : IntSize) (Separator : Char) (gz : Compressor)
    (h : Handler) (W : Type) (rw : ResponseWriter W) (w : W) (r : Request)
    (hvis : checkHiddenDir Separator r.URL.Path = false) :
    composeMiddlewares sz Separator gz h W rw w r =
      loggingMiddleware sz (compressionMiddleware gz h) W rw w r := by
  simp [composeMiddlewares, loggingMiddleware, securityMiddleware, hvis]

theorem delivered_append (xs : List WriteRecord) (rec : WriteRecord) :
    delivered (xs ++ [rec]) = delivered xs + rec.n := by
  simp [delivered]

theorem size_counts_delivered_Write {W : Type} (sz : IntSize) (rw : ResponseWriter W)
    (x : responseWriter (W × List WriteRecord)) (b : Bytes)
    (hx : x.size = wrapInt sz (delivered x.ResponseWriter.2)) :
    ((responseWriter.iface sz (recording rw)).Write x b).1.size =
      wrapInt sz (delivered ((responseWriter.iface sz (recording rw)).Write x b).1.ResponseWriter.2) := by
  simp only [responseWriter.iface, responseWriter.Write, recording, delivered_append, hx,
    wrapInt_add_wrapInt]

theorem writeChunks_view {W : Type} {rw : ResponseWriter W} {view : W → List Bytes}
    (hv : ChunkView rw view) (w : W) (chunks : List Bytes) :
    view (writeChunks rw w chunks).1 = view w ++ chunks ∧ (writeChunks rw w chunks).2 = none := by
  induction chunks generalizing w with
  | nil => simp [writeChunks]
  | cons chunk rest ih =>
    simp only [writeChunks, hv.noError w chunk]
    obtain ⟨h1, h2⟩ := ih (rw.Write w chunk).1
    exact ⟨by rw [h1, hv.write]; simp, h2⟩

theorem recording_chunkView {W : Type} (sz : IntSize) (rw : ResponseWriter W)
    (hok : ∀ u b, (rw.Write u b).2.2 = none) :
    ChunkView (responseWriter.iface sz (recording rw))
      (fun x => x.ResponseWriter.2.map (fun rec => rec.b)) := by
  constructor
  · intro x b
    simp [responseWriter.iface, responseWriter.Write, recording]
  · intro x b
    simp [responseWriter.iface, responseWriter.Write, recording, hok]
  · intro x statusCode
    simp [responseWriter.iface, responseWriter.WriteHeader, recording]
  · intro x f
    simp [responseWriter.iface, recording]

theorem compression_run_chunks {W : Type} {rw : ResponseWriter W} {view : W → List Bytes}
    (hv : ChunkView rw view) (gz : Compressor) (p : Prog) (cw : compressionResponseWriter gz W)
    (herr : cw.Writer.err = none) :
    (p.run (compressionResponseWriter.iface rw) cw).w.Writer.err = none ∧
    (p.run (compressionResponseWriter.iface rw) cw).w.Writer.state =
      (gz.feed cw.Writer.state
        (written (p.run (compressionResponseWriter.iface rw) cw).trace)).1 ∧
    view (p.run (compressionResponseWriter.iface rw) cw).w.ResponseWriter =
      view cw.ResponseWriter ++
        (gz.feed cw.Writer.state
          (written (p.run (compressionResponseWriter.iface rw) cw).trace)).2 := by
  induction p generalizing cw with
  | ret => simp [Prog.run, written, Compressor.feed, herr]
  | panic => simp [Prog.run, written, Compressor.feed, herr]
  | headerSet key value next ih =>
    have := ih ((compressionResponseWriter.iface rw).HeaderUpdate cw (fun h => h.Set key value))
      herr
    simpa [Prog.run, written, compressionResponseWriter.iface, hv.headerUpdate] using this
  | headerAdd key value next ih =>
    have := ih ((compressionResponseWriter.iface rw).HeaderUpdate cw (fun h => h.Add key value))
      herr
    simpa [Prog.run, written, compressionResponseWriter.iface, hv.headerUpdate] using this
  | headerDel key next ih =>
    have := ih ((compressionResponseWriter.iface rw).HeaderUpdate cw (fun h => h.Del key))
      herr
    simpa [Prog.run, written, compressionResponseWriter.iface, hv.headerUpdate] using this
  | headerRead next ih =>
    simp only [Prog.run]
    exact ih _ cw herr
  | writeHeader statusCode next ih =>
    have hs : ((compressionResponseWriter.iface rw).WriteHeader cw statusCode).Writer
        = cw.Writer := by
      simp only [compressionResponseWriter.iface, compressionResponseWriter.WriteHeader]
      split <;> rfl
    have hb : view ((compressionResponseWriter.iface rw).WriteHeader cw
        statusCode).ResponseWriter = view cw.ResponseWriter := by
      simp only [compressionResponseWriter.iface, compressionResponseWriter.WriteHeader]
      split <;> simp [hv.writeHeader, hv.headerUpdate]
    have := ih ((compressionResponseWriter.iface rw).WriteHeader cw statusCode)
      (by rw [hs]; exact herr)
    rw [hs, hb] at this
    simpa [Prog.run, written] using this
  | write b next ih =>
    obtain ⟨hw1, hw2⟩ := writeChunks_view hv cw.ResponseWriter (gz.Write cw.Writer.state b).2
    have hstep : ((compressionResponseWriter.iface rw).Write cw b).1.Writer.err = none ∧
        ((compressionResponseWriter.iface rw).Write cw b).1.Writer.state =
          (gz.Write cw.Writer.state b).1 ∧
        view ((compressionResponseWriter.iface rw).Write cw b).1.ResponseWriter =
          view cw.ResponseWriter ++ (gz.Write cw.Writer.state b).2 := by
      simp only [compressionResponseWriter.iface, compressionResponseWriter.Write,
        gzipWriter.Write, herr, hw2]
      exact ⟨trivial, trivial, hw1⟩
    have := ih ((compressionResponseWriter.iface rw).Write cw b).2.1
      ((compressionResponseWriter.iface rw).Write cw b).2.2
      ((compressionResponseWriter.iface rw).Write cw b).1 hstep.1
    rw [hstep.2.1, hstep.2.2] at this
    simpa [Prog.run, written, Compressor.feed, List.append_assoc] using this


/-! ## Recording changes nothing -/

theorem sim_run {W1 W2 : Type} {rw1 : ResponseWriter W1} {rw2 : ResponseWriter W2}
    {Rel : W1 → W2 → Prop} (hs : Sim rw1 rw2 Rel) (p : Prog) (w1 : W1) (w2 : W2)
    (h : Rel w1 w2) :
    Rel (p.run rw1 w1).w (p.run rw2 w2).w ∧ (p.run rw1 w1).trace = (p.run rw2 w2).trace ∧
      (p.run rw1 w1).panicked = (p.run rw2 w2).panicked := by
  induction p generalizing w1 w2 with
  | ret => exact ⟨h, rfl, rfl⟩
  | panic => exact ⟨h, rfl, rfl⟩
  | headerSet key value next ih =>
    obtain ⟨a, b, c⟩ := ih _ _ (hs.headerUpdate w1 w2 (fun h => h.Set key value) h)
    exact ⟨a, by simp [Prog.run, b], c⟩
  | headerAdd key value next ih =>
    obtain ⟨a, b, c⟩ := ih _ _ (hs.headerUpdate w1 w2 (fun h => h.Add key value) h)
    exact ⟨a, by simp [Prog.run, b], c⟩
  | headerDel key next ih =>
    obtain ⟨a, b, c⟩ := ih _ _ (hs.headerUpdate w1 w2 (fun h => h.Del key) h)
    exact ⟨a, by simp [Prog.run, b], c⟩
  | headerRead next ih =>
    simp only [Prog.run, hs.header w1 w2 h]
    exact ih _ _ _ h
  | writeHeader statusCode next ih =>
    obtain ⟨a, b, c⟩ := ih _ _ (hs.writeHeader w1 w2 statusCode h)
    exact ⟨a, by simp [Prog.run, b], c⟩
  | write b next ih =>
    obtain ⟨hr, he⟩ := hs.write w1 w2 b h
    simp only [Prog.run, he]
    obtain ⟨a, b', c⟩ := ih (rw2.Write w2 b).2.1 (rw2.Write w2 b).2.2 _ _ hr
    exact ⟨a, by rw [b'], c⟩

theorem sim_writeChunks {W1 W2 : Type} {rw1 : ResponseWriter W1} {rw2 : ResponseWriter W2}
    {Rel : W1 → W2 → Prop} (hs : Sim rw1 rw2 Rel) (chunks : List Bytes) (w1 : W1) (w2 : W2)
    (h : Rel w1 w2) :
    Rel (writeChunks rw1 w1 chunks).1 (writeChunks rw2 w2 chunks).1 ∧
      (writeChunks rw1 w1 chunks).2 = (writeChunks rw2 w2 chunks).2 := by
  induction chunks generalizing w1 w2 with
  | nil => exact ⟨h, rfl⟩
  | cons chunk rest ih =>
    obtain ⟨hr, he⟩ := hs.write w1 w2 chunk h
    simp only [writeChunks, he]
    split
    · exact ih _ _ hr
    · exact ⟨hr, rfl⟩

theorem sim_responseWriter {W1 W2 : Type} {rw1 : ResponseWriter W1} {rw2 : ResponseWriter W2}
    {Rel : W1 → W2 → Prop} (sz : IntSize) (hs : Sim rw1 rw2 Rel) :
    Sim (responseWriter.iface sz rw1) (responseWriter.iface sz rw2)
      (fun x y => Rel x.ResponseWriter y.ResponseWriter ∧ x.statusCode = y.statusCode ∧
        x.size = y.size) := by
  constructor
  · intro x y h
    exact hs.header _ _ h.1
  · intro x y f h
    exact ⟨hs.headerUpdate _ _ f h.1, h.2.1, h.2.2⟩
  · intro x y b h
    obtain ⟨hr, he⟩ := hs.write x.ResponseWriter y.ResponseWriter b h.1
    simp only [responseWriter.iface, responseWriter.Write, he, h.2.1, h.2.2]
    exact ⟨⟨hr, trivial, trivial⟩, trivial⟩
  · intro x y statusCode h
    exact ⟨hs.writeHeader _ _ statusCode h.1, rfl, h.2.2⟩

theorem sim_compression {W1 W2 : Type} {rw1 : ResponseWriter W1} {rw2 : ResponseWriter W2}
    {Rel : W1 → W2 → Prop} (gz : Compressor) (hs : Sim rw1 rw2 Rel) :
    Sim (compressionResponseWriter.iface rw1) (compressionResponseWriter.iface rw2)
      (fun (x : compressionResponseWriter gz W1) (y : compressionResponseWriter gz W2) =>
        x.Writer = y.Writer ∧ Rel x.ResponseWriter y.ResponseWriter ∧
          x.isCompressed = y.isCompressed) := by
  constructor
  · intro x y h
    exact hs.header _ _ h.2.1
  · intro x y f h
    exact ⟨h.1, hs.headerUpdate _ _ f h.2.1, h.2.2⟩
  · intro x y b h
    obtain ⟨hr, he⟩ := sim_writeChunks hs (gz.Write y.Writer.state b).2 _ _ h.2.1
    simp only [compressionResponseWriter.iface, compressionResponseWriter.Write,
      gzipWriter.Write, h.1, h.2.2]
    cases hz : y.Writer.err with
    | some e => exact ⟨⟨rfl, h.2.1, trivial⟩, rfl⟩
    | none =>
      simp only [he]
      cases hc : (writeChunks rw2 y.ResponseWriter (gz.Write y.Writer.state b).2).2 with
      | none => exact ⟨⟨rfl, hr, trivial⟩, rfl⟩
      | some e => exact ⟨⟨rfl, hr, trivial⟩, rfl⟩
  · intro x y statusCode h
    simp only [compressionResponseWriter.iface, compressionResponseWriter.WriteHeader, h.2.2]
    split
    · exact ⟨h.1, hs.writeHeader _ _ _ (hs.headerUpdate _ _ _ h.2.1), rfl⟩
    · exact ⟨h.1, hs.writeHeader _ _ _ h.2.1, h.2.2⟩

theorem sim_compressionMiddleware {W1 W2 : Type} {rw1 : ResponseWriter W1}
    {rw2 : ResponseWriter W2} {Rel : W1 → W2 → Prop} (hs : Sim rw1 rw2 Rel) (gz : Compressor)
    (body : Request → Prog) (w1 : W1) (w2 : W2) (r : Request) (h : Rel w1 w2) :
    Rel (compressionMiddleware gz (handlerOf body) W1 rw1 w1 r).w
        (compressionMiddleware gz (handlerOf body) W2 rw2 w2 r).w ∧
      (compressionMiddleware gz (handlerOf body) W1 rw1 w1 r).panicked =
        (compressionMiddleware gz (handlerOf body) W2 rw2 w2 r).panicked ∧
      (compressionMiddleware gz (handlerOf body) W1 rw1 w1 r).log =
        (compressionMiddleware gz (handlerOf body) W2 rw2 w2 r).log ∧
      (compressionMiddleware gz (handlerOf body) W1 rw1 w1 r).served =
        (compressionMiddleware gz (handlerOf body) W2 rw2 w2 r).served := by
  simp only [compressionMiddleware, handlerOf]
  split
  · obtain ⟨a, b, c⟩ := sim_run hs (body r) w1 w2 h
    exact ⟨a, c, rfl, by rw [b]⟩
  · obtain ⟨⟨a1, a2, _⟩, b, c⟩ := sim_run (sim_compression gz hs) (body r)
      ⟨⟨gz.NewWriter, none⟩, rw1.HeaderUpdate w1 (fun h => h.Set "Content-Encoding" "gzip"),
        false⟩
      ⟨⟨gz.NewWriter, none⟩, rw2.HeaderUpdate w2 (fun h => h.Set "Content-Encoding" "gzip"),
        false⟩
      ⟨rfl, hs.headerUpdate _ _ _ h, rfl⟩
    refine ⟨?_, c, rfl, by rw [b]⟩
    simp only [gzipWriter.Close, a1]
    split
    · exact a2
    · exact (sim_writeChunks hs _ _ _ a2).1

theorem sim_logging_compression {W1 W2 : Type} {rw1 : ResponseWriter W1}
    {rw2 : ResponseWriter W2} {Rel : W1 → W2 → Prop} (hs : Sim rw1 rw2 Rel) (sz : IntSize)
    (gz : Compressor) (body : Request → Prog) (w1 : W1) (w2 : W2) (r : Request)
    (h : Rel w1 w2) :
    Rel (loggingMiddleware sz (compressionMiddleware gz (handlerOf body)) W1 rw1 w1 r).w
        (loggingMiddleware sz (compressionMiddleware gz (handlerOf body)) W2 rw2 w2 r).w ∧
      (loggingMiddleware sz (compressionMiddleware gz (handlerOf body)) W1 rw1 w1 r).panicked =
        (loggingMiddleware sz (compressionMiddleware gz (handlerOf body)) W2 rw2 w2 r).panicked ∧
      (loggingMiddleware sz (compressionMiddleware gz (handlerOf body)) W1 rw1 w1 r).log =
        (loggingMiddleware sz (compressionMiddleware gz (handlerOf body)) W2 rw2 w2 r).log ∧
      (loggingMiddleware sz (compressionMiddleware gz (handlerOf body)) W1 rw1 w1 r).served =
        (loggingMiddleware sz (compressionMiddleware gz (handlerOf body)) W2 rw2 w2 r).served := by
  obtain ⟨⟨a1, a2, a3⟩, b, c, d⟩ := sim_compressionMiddleware (sim_responseWriter sz hs) gz body
    (⟨w1, 200, 0⟩ : responseWriter W1) (⟨w2, 200, 0⟩ : responseWriter W2) r ⟨h, rfl, rfl⟩
  simp only [loggingMiddleware, b, c, d, a2, a3]
  split <;> exact ⟨a1, rfl, rfl, rfl⟩

theorem recording_sim {W : Type} (rw : ResponseWriter W) :
    Sim (recording rw) rw (fun s w => s.1 = w) := by
  constructor
  · intro s w h
    subst h
    rfl
  · intro s w f h
    subst h
    rfl
  · intro s w b h
    subst h
    exact ⟨rfl, rfl⟩
  · intro s w statusCode h
    subst h
    rfl

theorem compressionMiddleware_chunks {W : Type} {rw : ResponseWriter W}
    {view : W → List Bytes} (hv : ChunkView rw view) (gz : Compressor)
    (body : Request → Prog) (w : W) (r : Request)
    (hgz : Contains (r.Header.Get "Accept-Encoding") "gzip" = true) :
    ∃ trace, (compressionMiddleware gz (handlerOf body) W rw w r).served = [trace] ∧
      view (compressionMiddleware gz (handlerOf body) W rw w r).w =
        view w ++ ((gz.feed gz.NewWriter (written trace)).2 ++
          gz.Close (gz.feed gz.NewWriter (written trace)).1) := by
  obtain ⟨h1, h2, h3⟩ := compression_run_chunks hv gz (body r)
    ⟨⟨gz.NewWriter, none⟩, rw.HeaderUpdate w (fun h => h.Set "Content-Encoding" "gzip"), false⟩
    rfl
  rw [compressionMiddleware_gzip_eq gz body W rw w r hgz]
  refine ⟨_, rfl, ?_⟩
  simp only [gzipWriter.Close, h1]
  rw [(writeChunks_view hv _ _).1, h3, h2, hv.headerUpdate, List.append_assoc]

/-- C9, as stated, fails: on a 32-bit target, for a visible request that negotiates
gzip, a handler that writes `2^30` bytes twice has `2^31 + 3` compressed bytes
delivered to the response, all taken, while the logged size is `-2^31 + 3`. -/
theorem composeMiddlewares_logged_size_wraps_around :
    checkHiddenDir '/' (getRequest "/a/b" ["gzip"]).URL.Path = false ∧
    Contains ((getRequest "/a/b" ["gzip"]).Header.Get "Accept-Encoding") "gzip" = true ∧
    (serve .bits32 '/' storedGzip
        (handlerOf fun _ => .write (List.replicate (2 ^ 30) 0) fun _ _ =>
          .write (List.replicate (2 ^ 30) 0) fun _ _ => .ret)
        (getRequest "/a/b" ["gzip"])).log =
      [⟨"127.0.0.1:4000", "GET", "/a/b", "HTTP/1.1", 200, -2147483645⟩] ∧
    (serve .bits32 '/' storedGzip
        (handlerOf fun _ => .write (List.replicate (2 ^ 30) 0) fun _ _ =>
          .write (List.replicate (2 ^ 30) 0) fun _ _ => .ret)
        (getRequest "/a/b" ["gzip"])).w.body.length = 2147483651 := by
  have hvis : checkHiddenDir '/' (getRequest "/a/b" ["gzip"]).URL.Path = false := by decide
  have hgz : Contains ((getRequest "/a/b" ["gzip"]).Header.Get "Accept-Encoding") "gzip"
      = true := by decide
  have key : ∀ b1 b2 : Bytes,
      (serve .bits32 '/' storedGzip
          (handlerOf fun _ => .write b1 fun _ _ => .write b2 fun _ _ => .ret)
          (getRequest "/a/b" ["gzip"])).log =
        [⟨"127.0.0.1:4000", "GET", "/a/b", "HTTP/1.1", 200,
          wrapInt .bits32 (2 + (b1.length : Int) + (b2.length : Int) + 1)⟩] ∧
      (serve .bits32 '/' storedGzip
          (handlerOf fun _ => .write b1 fun _ _ => .write b2 fun _ _ => .ret)
          (getRequest "/a/b" ["gzip"])).w.body.length = 2 + b1.length + b2.length + 1 := by
    intro b1 b2
    unfold serve
    rw [composeMiddlewares_visible_eq .bits32 '/' storedGzip _ _ _ _ _ hvis]
    simp only [loggingMiddleware]
    rw [compressionMiddleware_gzip_eq storedGzip _ _ _ _ _ hgz]
    simp [Prog.run, compressionResponseWriter.iface, compressionResponseWriter.Write,
      gzipWriter.Write, gzipWriter.Close, writeChunks, storedGzip, responseWriter.iface,
      responseWriter.Write, Transport.iface, Transport.Write, Transport.WriteHeader,
      Transport.fresh, getRequest, wrapInt_add_wrapInt]
    omega
  obtain ⟨h1, h2⟩ := key (List.replicate (2 ^ 30) 0) (List.replicate (2 ^ 30) 0)
  rw [List.length_replicate] at h1 h2
  refine ⟨hvis, hgz, h1.trans (by decide), h2.trans (by decide)⟩

theorem recorded_chain_logs_delivered_size (sz : IntSize) (Separator : Char)
    (gz : Compressor) (body : Request → Prog) {W : Type} (rw : ResponseWriter W) (w : W)
    (r : Request) (hvis : checkHiddenDir Separator r.URL.Path = false)
    (hgz : Contains (r.Header.Get "Accept-Encoding") "gzip" = true) :
    ∃ trace,
      (composeMiddlewares sz Separator gz (handlerOf body) (W × List WriteRecord)
        (recording rw) (w, []) r).served = [trace] ∧
      ((composeMiddlewares sz Separator gz (handlerOf body) (W × List WriteRecord)
          (recording rw) (w, []) r).panicked = true →
        (composeMiddlewares sz Separator gz (handlerOf body) (W × List WriteRecord)
          (recording rw) (w, []) r).log = []) ∧
      ((composeMiddlewares sz Separator gz (handlerOf body) (W × List WriteRecord)
          (recording rw) (w, []) r).panicked = false →
        ∃ line,
          (composeMiddlewares sz Separator gz (handlerOf body) (W × List WriteRecord)
            (recording rw) (w, []) r).log = [line] ∧
          line.size = wrapInt sz (delivered
            (composeMiddlewares sz Separator gz (handlerOf body) (W × List WriteRecord)
              (recording rw) (w, []) r).w.2) ∧
          (-(sz.maxInt + 1) ≤ delivered
              (composeMiddlewares sz Separator gz (handlerOf body) (W × List WriteRecord)
                (recording rw) (w, []) r).w.2 →
            delivered
              (composeMiddlewares sz Separator gz (handlerOf body) (W × List WriteRecord)
                (recording rw) (w, []) r).w.2 ≤ sz.maxInt →
            line.size = delivered
              (composeMiddlewares sz Separator gz (handlerOf body) (W × List WriteRecord)
                (recording rw) (w, []) r).w.2)) ∧
      ((∀ u b, (rw.Write u b).2.2 = none) →
        (composeMiddlewares sz Separator gz (handlerOf body) (W × List WriteRecord)
          (recording rw) (w, []) r).w.2.map (fun rec => rec.b) =
          (gz.feed gz.NewWriter (written trace)).2 ++
            gz.Close (gz.feed gz.NewWriter (written trace)).1) := by
  have hsize : (compressionMiddleware gz (handlerOf body) (responseWriter (W × List WriteRecord))
      (responseWriter.iface sz (recording rw)) ⟨(w, []), 200, 0⟩ r).w.size =
      wrapInt sz (delivered (compressionMiddleware gz (handlerOf body)
        (responseWriter (W × List WriteRecord))
        (responseWriter.iface sz (recording rw)) ⟨(w, []), 200, 0⟩ r).w.ResponseWriter.2) :=
    compressionMiddleware_preserves (responseWriter.iface sz (recording rw))
      (fun x => x.size = wrapInt sz (delivered x.ResponseWriter.2))
      (fun _ _ hx => hx) (fun x b hx => size_counts_delivered_Write sz rw x b hx)
      (fun _ _ hx => hx) gz body ⟨(w, []), 200, 0⟩ r (by simp [delivered, wrapInt_zero])
  have heq := compressionMiddleware_gzip_eq gz body (responseWriter (W × List WriteRecord))
    (responseWriter.iface sz (recording rw)) ⟨(w, []), 200, 0⟩ r hgz
  have hlog : (compressionMiddleware gz (handlerOf body) (responseWriter (W × List WriteRecord))
      (responseWriter.iface sz (recording rw)) ⟨(w, []), 200, 0⟩ r).log = [] := by
    rw [heq]
  have hserved : ∃ trace, (compressionMiddleware gz (handlerOf body)
      (responseWriter (W × List WriteRecord))
      (responseWriter.iface sz (recording rw)) ⟨(w, []), 200, 0⟩ r).served = [trace] ∧
      ((∀ u b, (rw.Write u b).2.2 = none) →
        (compressionMiddleware gz (handlerOf body) (responseWriter (W × List WriteRecord))
          (responseWriter.iface sz (recording rw)) ⟨(w, []), 200, 0⟩
            r).w.ResponseWriter.2.map (fun rec => rec.b) =
          (gz.feed gz.NewWriter (written trace)).2 ++
            gz.Close (gz.feed gz.NewWriter (written trace)).1) := by
    refine ⟨((body r).run (compressionResponseWriter.iface (responseWriter.iface sz (recording rw)))
      ⟨⟨gz.NewWriter, none⟩, (responseWriter.iface sz (recording rw)).HeaderUpdate
        ⟨(w, []), 200, 0⟩ (fun h => h.Set "Content-Encoding" "gzip"), false⟩).trace, ?_, ?_⟩
    · rw [heq]
    · intro hok
      obtain ⟨trace, hs, hview⟩ := compressionMiddleware_chunks (recording_chunkView sz rw hok)
        gz body (⟨(w, []), 200, 0⟩ : responseWriter (W × List WriteRecord)) r hgz
      rw [heq] at hs
      have htr := List.head_eq_of_cons_eq hs
      rw [← htr] at hview
      simpa using hview
  obtain ⟨trace, hs, hchunks⟩ := hserved
  rw [composeMiddlewares_visible_eq sz Separator gz (handlerOf body) _ _ _ r hvis]
  refine ⟨trace, ?_, ?_, ?_, ?_⟩
  · simp only [loggingMiddleware]
    split <;> exact hs
  · intro hp
    simp only [loggingMiddleware] at hp ⊢
    split
    · exact hlog
    · next hn => simp [hn] at hp
  · intro hp
    simp only [loggingMiddleware] at hp ⊢
    split
    · next hn => simp [hn] at hp
    · refine ⟨_, by rw [hlog]; rfl, hsize, ?_⟩
      intro hlo hhi
      exact hsize.trans (wrapInt_of_inRange sz _ hlo hhi)
  · intro hok
    simp only [loggingMiddleware]
    split <;> exact hchunks hok

/-- C9, amended: for every terminal handler body, every underlying response writer
and every request whose path is not hidden and whose `Accept-Encoding` value contains
`gzip`, the composed handler logs, when the handler returns, exactly one line; its
size is the number of bytes the underlying writer reported as written over the
`Write` calls it received (as recorded beside it, which changes neither the response
nor the log), reduced to the target's `int`, and is that number itself when it lies
in the range of `int`.  When the underlying writer reports no error, the `Write`
calls it received are exactly the chunks the gzip writer emitted for the handler's
writes followed by the chunks emitted by the deferred `Close`. -/
theorem composeMiddlewares_logs_delivered_size (sz : IntSize) (Separator : Char)
    (gz : Compressor) (body : Request → Prog) {W : Type} (rw : ResponseWriter W) (w : W)
    (r : Request) (hvis : checkHiddenDir Separator r.URL.Path = false)
    (hgz : Contains (r.Header.Get "Accept-Encoding") "gzip" = true) :
    ∃ trace,
      (composeMiddlewares sz Separator gz (handlerOf body) W rw w r).served = [trace] ∧
      (composeMiddlewares sz Separator gz (handlerOf body) (W × List WriteRecord)
          (recording rw) (w, []) r).w.1 =
        (composeMiddlewares sz Separator gz (handlerOf body) W rw w r).w ∧
      (composeMiddlewares sz Separator gz (handlerOf body) (W × List WriteRecord)
          (recording rw) (w, []) r).log =
        (composeMiddlewares sz Separator gz (handlerOf body) W rw w r).log ∧
      ((composeMiddlewares sz Separator gz (handlerOf body) W rw w r).panicked = true →
        (composeMiddlewares sz Separator gz (handlerOf body) W rw w r).log = []) ∧
      ((composeMiddlewares sz Separator gz (handlerOf body) W rw w r).panicked = false →
        ∃ line,
          (composeMiddlewares sz Separator gz (handlerOf body) W rw w r).log = [line] ∧
          line.size = wrapInt sz (delivered
            (composeMiddlewares sz Separator gz (handlerOf body) (W × List WriteRecord)
          (recording rw) (w, []) r).w.2) ∧
          (-(sz.maxInt + 1) ≤ delivered
              (composeMiddlewares sz Separator gz (handlerOf body) (W × List WriteRecord)
          (recording rw) (w, []) r).w.2 →
            delivered
              (composeMiddlewares sz Separator gz (handlerOf body) (W × List WriteRecord)
          (recording rw) (w, []) r).w.2 ≤ sz.maxInt →
            line.size = delivered
              (composeMiddlewares sz Separator gz (handlerOf body) (W × List WriteRecord)
          (recording rw) (w, []) r).w.2)) ∧
      ((∀ u b, (rw.Write u b).2.2 = none) →
        (composeMiddlewares sz Separator gz (handlerOf body) (W × List WriteRecord)
          (recording rw) (w, []) r).w.2.map (fun rec => rec.b) =
          (gz.feed gz.NewWriter (written trace)).2 ++
            gz.Close (gz.feed gz.NewWriter (written trace)).1) := by
  obtain ⟨trace, h1, h2, h3, h4⟩ :=
    recorded_chain_logs_delivered_size sz Separator gz body rw w r hvis hgz
  have hsim := sim_logging_compression (recording_sim rw) sz gz body (w, []) w r rfl
  rw [← composeMiddlewares_visible_eq sz Separator gz (handlerOf body) _ (recording rw) _ r hvis,
    ← composeMiddlewares_visible_eq sz Separator gz (handlerOf body) _ rw _ r hvis] at hsim
  obtain ⟨s1, s2, s3, s4⟩ := hsim
  rw [← s2, ← s3, ← s4]
  exact ⟨trace, h1, s1, rfl, h2, h3, h4⟩

/-- Witness for the amended C9: on a 64-bit target over the server's response, a
handler that writes two bytes is logged with size 5, the length of the compressed
body (two header bytes, the payload, one trailer byte), and the response received
those three chunks. -/
theorem composeMiddlewares_logs_delivered_size_witness :
    checkHiddenDir '/' (getRequest "/a/b" ["gzip"]).URL.Path = false ∧
    Contains ((getRequest "/a/b" ["gzip"]).Header.Get "Accept-Encoding") "gzip" = true ∧
    (∃ line,
      (composeMiddlewares .bits64 '/' storedGzip
        (handlerOf fun _ => .write [1, 2] fun _ _ => .ret) Transport
        Transport.iface Transport.fresh (getRequest "/a/b" ["gzip"])).log
        = [line] ∧
      line.size = 5) ∧
    (composeMiddlewares .bits64 '/' storedGzip
        (handlerOf fun _ => .write [1, 2] fun _ _ => .ret) (Transport × List WriteRecord)
        (recording Transport.iface) (Transport.fresh, [])
        (getRequest "/a/b" ["gzip"])).w.2.map (fun rec => rec.b) = [[31, 139], [1, 2], [0]] := by
  refine ⟨by decide, by decide, ?_⟩
  obtain ⟨trace, hs, _, _, _, h, hc⟩ := composeMiddlewares_logs_delivered_size .bits64 '/' storedGzip
    (fun _ => .write [1, 2] fun _ _ => .ret) Transport.iface Transport.fresh
    (getRequest "/a/b" ["gzip"]) (by decide) (by decide)
  have e : [trace] = [[Event.write [1, 2] 2 none]] := hs.symm
  have htr := List.head_eq_of_cons_eq e
  subst htr
  obtain ⟨line, h1, h2, _⟩ := h (by decide)
  exact ⟨⟨line, h1, h2.trans (by decide)⟩, (hc (fun _ _ => rfl)).trans (by decide)⟩

/-- Over a response that takes no body the gzip writer's first chunk is refused,
nothing more is written, and the logged size is 0. -/
theorem composeMiddlewares_logs_zero_when_body_refused :
    (composeMiddlewares .bits64 '/' storedGzip
        (handlerOf fun _ => .writeHeader 204 .ret) (Transport × List WriteRecord)
        (recording Transport.bodyless) (Transport.fresh, []) (getRequest "/a/b" ["gzip"])).log
      = [⟨"127.0.0.1:4000", "GET", "/a/b", "HTTP/1.1", 204, 0⟩] ∧
    (composeMiddlewares .bits64 '/' storedGzip
        (handlerOf fun _ => .writeHeader 204 .ret) (Transport × List WriteRecord)
        (recording Transport.bodyless) (Transport.fresh, [])
        (getRequest "/a/b" ["gzip"])).w.2.map (fun rec => rec.b) = [[31, 139]] := by
  decide

end Xend
